import Mathlib

/-!
Verification of the MiniLogos conversion core (`src/services/jimService.ts`,
`src/services/asepriteParser.ts`) against its natural-language specification.

Machine integers are modelled as `Nat` (JavaScript bitwise ops on the values
in range are `/`, `%` by powers of two); byte buffers are `List Nat`;
`DataView` reads, which throw `RangeError` when out of range, are modelled
as `Option` / `Except`; bare `Uint8Array` indexing, whose `undefined` result
is coerced to 0 by the bitwise operators applied to it in the source, is
modelled as `List.getD _ _ 0`.
-/

/-- `RgbColor` from `src/services/types.ts`: three 8-bit channels. -/
structure RgbColor where
  r : Nat
  g : Nat
  b : Nat
  deriving DecidableEq, Repr

instance : Inhabited RgbColor := ⟨⟨0, 0, 0⟩⟩

/-- `Palette` from `src/services/types.ts`. -/
abbrev Palette := List RgbColor

/-- `TileData` from `src/services/types.ts`: 8 rows of 8 color indices. -/
abbrev TileData := List (List Nat)

/-- `MapCell` from `src/services/types.ts`. -/
structure MapCell where
  tileIndex : Nat
  paletteIndex : Nat
  hFlip : Bool
  vFlip : Bool
  priority : Bool
  deriving DecidableEq, Repr

instance : Inhabited MapCell := ⟨⟨0, 0, false, false, false⟩⟩

/-- `JimData` from `src/services/types.ts`. -/
structure JimData where
  palettes : List (List RgbColor)
  tiles : List (List (List Nat))
  mapWidth : Nat
  mapHeight : Nat
  mapData : List (List MapCell)
  deriving DecidableEq, Repr

/-- `AsepriteData` from `src/services/asepriteParser.ts`. -/
structure AsepriteData where
  width : Nat
  height : Nat
  palette : List RgbColor
  pixels : List Nat
  deriving DecidableEq, Repr

/-- `ImageData` as consumed by `updateJimFromImage`: RGBA byte array. -/
structure ImageDataModel where
  width : Nat
  height : Nat
  data : List Nat
  deriving DecidableEq, Repr

/-- `parseGenesisColor` (jimService.ts lines 6-12): extract three 3-bit
fields from bits {9,5,1} of the hardware word, scale each by 36. -/
def parseGenesisColor (word : Nat) : RgbColor :=
  { r := word / 2 % 8 * 36
    g := word / 32 % 8 * 36
    b := word / 512 % 8 * 36 }

/-- `rgbToGenesisColor` (jimService.ts lines 14-19): floor-divide each
channel by 36, clamp to 7, pack at bits {9,5,1}. -/
def rgbToGenesisColor (color : RgbColor) : Nat :=
  let rGen := min 7 (color.r / 36)
  let gGen := min 7 (color.g / 36)
  let bGen := min 7 (color.b / 36)
  bGen * 512 + gGen * 32 + rGen * 2

/-- `decodeTile` (jimService.ts lines 21-34): 32 bytes to 8 rows of 8
pixels, high nibble first, 4 bytes per row. -/
def decodeTile (data : List Nat) : List (List Nat) :=
  (List.range 8).map fun row =>
    (List.range 4).flatMap fun col =>
      let byte := data.getD (row * 4 + col) 0
      [byte / 16 % 16, byte % 16]

/-- `encodeTile` (jimService.ts lines 36-46): pack each pair of pixels into
a byte, high nibble first, masking each pixel to 4 bits. -/
def encodeTile (pixels : List (List Nat)) : List Nat :=
  (List.range 8).flatMap fun row =>
    (List.range 4).map fun col =>
      let p1 := (pixels.getD row []).getD (col * 2) 0 % 16
      let p2 := (pixels.getD row []).getD (col * 2 + 1) 0 % 16
      p1 * 16 + p2

/-- Hardware-level colors: each channel is one of the 8 discrete levels
0, 36, ..., 252 (i.e. a multiple of 36 that is at most 252). -/
def isHardwareLevel (c : RgbColor) : Prop :=
  c.r % 36 = 0 ∧ c.r ≤ 252 ∧ c.g % 36 = 0 ∧ c.g ≤ 252 ∧ c.b % 36 = 0 ∧ c.b ≤ 252

lemma parseGenesisColor_pack (kr kg kb : Nat) (hr : kr ≤ 7) (hg : kg ≤ 7)
    (hb : kb ≤ 7) :
    parseGenesisColor (kb * 512 + kg * 32 + kr * 2) = ⟨kr * 36, kg * 36, kb * 36⟩ := by
  simp only [parseGenesisColor, RgbColor.mk.injEq]
  refine ⟨?_, ?_, ?_⟩ <;> · congr 1; omega

lemma rgbToGenesisColor_decomp (c : RgbColor) :
    rgbToGenesisColor c =
      min 7 (c.b / 36) * 512 + min 7 (c.g / 36) * 32 + min 7 (c.r / 36) * 2 := rfl

/-- C4: for every hardware-level color, decode after encode is the
identity; for every color, decode∘encode is idempotent and snaps each
channel down (result channel never exceeds the input channel). -/
lemma genesisChannel_facts (x : Nat) :
    min 7 (x / 36) * 36 ≤ x ∧ min 7 (x / 36) ≤ 7 ∧
    (x % 36 = 0 → x ≤ 252 → min 7 (x / 36) * 36 = x) ∧
    min 7 (min 7 (x / 36) * 36 / 36) = min 7 (x / 36) := by
  rcases Nat.le_total 7 (x / 36) with h | h
  · rw [Nat.min_eq_left h]
    refine ⟨by omega, le_rfl, fun h1 h2 => by omega, ?_⟩
    have h36 : 7 * 36 / 36 = 7 := by norm_num
    rw [h36, Nat.min_self]
  · rw [Nat.min_eq_right h]
    refine ⟨by omega, h, fun h1 h2 => by omega, ?_⟩
    have hx : x / 36 * 36 / 36 = x / 36 := by omega
    rw [hx, Nat.min_eq_right h]

theorem color_roundtrip (c : RgbColor) :
    (isHardwareLevel c → parseGenesisColor (rgbToGenesisColor c) = c) ∧
    parseGenesisColor (rgbToGenesisColor (parseGenesisColor (rgbToGenesisColor c))) =
      parseGenesisColor (rgbToGenesisColor c) ∧
    (parseGenesisColor (rgbToGenesisColor c)).r ≤ c.r ∧
    (parseGenesisColor (rgbToGenesisColor c)).g ≤ c.g ∧
    (parseGenesisColor (rgbToGenesisColor c)).b ≤ c.b := by
  obtain ⟨r, g, b⟩ := c
  obtain ⟨hr1, hr2, hr3, hr4⟩ := genesisChannel_facts r
  obtain ⟨hg1, hg2, hg3, hg4⟩ := genesisChannel_facts g
  obtain ⟨hb1, hb2, hb3, hb4⟩ := genesisChannel_facts b
  have hparse :
      parseGenesisColor (rgbToGenesisColor ⟨r, g, b⟩) =
        ⟨min 7 (r / 36) * 36, min 7 (g / 36) * 36, min 7 (b / 36) * 36⟩ := by
    rw [rgbToGenesisColor_decomp]
    exact parseGenesisColor_pack _ _ _ hr2 hg2 hb2
  refine ⟨?_, ?_, ?_, ?_, ?_⟩
  · rintro ⟨h1, h2, h3, h4, h5, h6⟩
    rw [hparse]
    simp only [RgbColor.mk.injEq] at *
    exact ⟨hr3 h1 h2, hg3 h3 h4, hb3 h5 h6⟩
  · rw [hparse, rgbToGenesisColor_decomp]
    simp only [hr4, hg4, hb4]
    rw [parseGenesisColor_pack _ _ _ hr2 hg2 hb2]
  · rw [hparse]; exact hr1
  · rw [hparse]; exact hg1
  · rw [hparse]; exact hb1

/-- Witness for C4 at the concrete hardware-level color (36, 0, 252). -/
theorem color_roundtrip_witness :
    isHardwareLevel ⟨36, 0, 252⟩ ∧
    parseGenesisColor (rgbToGenesisColor ⟨36, 0, 252⟩) = ⟨36, 0, 252⟩ :=
  ⟨by refine ⟨?_, ?_, ?_, ?_, ?_, ?_⟩ <;> decide,
   (color_roundtrip ⟨36, 0, 252⟩).1 (by refine ⟨?_, ?_, ?_, ?_, ?_, ?_⟩ <;> decide)⟩

lemma listLen8_decomp {A : Type _} (l : List A) (h : l.length = 8) :
    ∃ a b c d e f g i, l = [a, b, c, d, e, f, g, i] := by
  rcases l with _ | ⟨x0, _ | ⟨x1, _ | ⟨x2, _ | ⟨x3, _ | ⟨x4, _ | ⟨x5, _ | ⟨x6, _ | ⟨x7, _ | ⟨x8, tl⟩⟩⟩⟩⟩⟩⟩⟩⟩ <;>
    simp only [List.length_cons, List.length_nil] at h
  all_goals first
  | omega
  | exact ⟨x0, x1, x2, x3, x4, x5, x6, x7, rfl⟩

lemma rangeEight_eq : List.range 8 = [0, 1, 2, 3, 4, 5, 6, 7] := rfl

lemma rangeFour_eq : List.range 4 = [0, 1, 2, 3] := rfl

set_option maxHeartbeats 1000000 in
lemma encodeTile_getD (t : TileData) (row col : Nat) (hrow : row < 8) (hcol : col < 4) :
    (encodeTile t).getD (row * 4 + col) 0 =
      (t.getD row []).getD (col * 2) 0 % 16 * 16 +
      (t.getD row []).getD (col * 2 + 1) 0 % 16 := by
  interval_cases row <;> interval_cases col <;>
    simp [encodeTile, rangeEight_eq, rangeFour_eq]

set_option maxHeartbeats 2000000 in
/-- C8: for a well-shaped tile whose 64 entries are all below 16,
decoding the encoding returns the tile unchanged; and each encoded byte
is the high-nibble-first packing of two 4-bit-masked pixels. -/
theorem tile_codec_roundtrip (t : TileData) :
    (t.length = 8 → (∀ row ∈ t, row.length = 8) →
      (∀ row ∈ t, ∀ v ∈ row, v < 16) →
      decodeTile (encodeTile t) = t) ∧
    (∀ row col : Nat, row < 8 → col < 4 →
      (encodeTile t).getD (row * 4 + col) 0 =
        (t.getD row []).getD (col * 2) 0 % 16 * 16 +
        (t.getD row []).getD (col * 2 + 1) 0 % 16) := by
  constructor
  · intro hlen hrows hvals
    obtain ⟨r0, r1, r2, r3, r4, r5, r6, r7, rfl⟩ := listLen8_decomp t hlen
    simp only [List.mem_cons, List.not_mem_nil, or_false, forall_eq_or_imp,
      forall_eq] at hrows
    obtain ⟨hl0, hl1, hl2, hl3, hl4, hl5, hl6, hl7⟩ := hrows
    obtain ⟨v00, v01, v02, v03, v04, v05, v06, v07, rfl⟩ := listLen8_decomp r0 hl0
    obtain ⟨v10, v11, v12, v13, v14, v15, v16, v17, rfl⟩ := listLen8_decomp r1 hl1
    obtain ⟨v20, v21, v22, v23, v24, v25, v26, v27, rfl⟩ := listLen8_decomp r2 hl2
    obtain ⟨v30, v31, v32, v33, v34, v35, v36, v37, rfl⟩ := listLen8_decomp r3 hl3
    obtain ⟨v40, v41, v42, v43, v44, v45, v46, v47, rfl⟩ := listLen8_decomp r4 hl4
    obtain ⟨v50, v51, v52, v53, v54, v55, v56, v57, rfl⟩ := listLen8_decomp r5 hl5
    obtain ⟨v60, v61, v62, v63, v64, v65, v66, v67, rfl⟩ := listLen8_decomp r6 hl6
    obtain ⟨v70, v71, v72, v73, v74, v75, v76, v77, rfl⟩ := listLen8_decomp r7 hl7
    simp only [List.mem_cons, List.not_mem_nil, or_false, forall_eq_or_imp,
      forall_eq] at hvals
    simp only [decodeTile, encodeTile, rangeEight_eq, rangeFour_eq,
      List.map_cons, List.map_nil, List.flatMap_cons, List.flatMap_nil,
      List.getD_cons_zero, List.getD_cons_succ, List.nil_append,
      List.cons_append, List.append_nil, List.cons.injEq, and_true]
    norm_num
    omega
  · intro row col hrow hcol
    exact encodeTile_getD t row col hrow hcol

/-- Witness for C8 at a concrete in-range tile. -/
theorem tile_codec_roundtrip_witness :
    decodeTile (encodeTile [[5, 0, 0, 0, 0, 0, 0, 15], [0, 0, 0, 0, 0, 0, 0, 0],
      [0, 0, 0, 0, 0, 0, 0, 0], [0, 0, 0, 0, 0, 0, 0, 0], [0, 0, 0, 0, 0, 0, 0, 0],
      [0, 0, 0, 0, 0, 0, 0, 0], [0, 0, 0, 0, 0, 0, 0, 0], [0, 0, 0, 0, 0, 0, 0, 3]]) =
      [[5, 0, 0, 0, 0, 0, 0, 15], [0, 0, 0, 0, 0, 0, 0, 0],
      [0, 0, 0, 0, 0, 0, 0, 0], [0, 0, 0, 0, 0, 0, 0, 0], [0, 0, 0, 0, 0, 0, 0, 0],
      [0, 0, 0, 0, 0, 0, 0, 0], [0, 0, 0, 0, 0, 0, 0, 0], [0, 0, 0, 0, 0, 0, 0, 3]] :=
  (tile_codec_roundtrip _).1 (by decide) (by decide) (by decide)

/-- `colorDist` (jimService.ts lines 336-338): squared Euclidean RGB
distance. -/
def colorDist (c1 c2 : RgbColor) : Int :=
  ((c1.r : Int) - c2.r) ^ 2 + ((c1.g : Int) - c2.g) ^ 2 + ((c1.b : Int) - c2.b) ^ 2

/-- The comparison `dist < bestDist` where `bestDist` starts as the
JavaScript `Infinity`, modelled by `none`. -/
def distLt (d : Int) : Option Int → Bool
  | none => true
  | some b => decide (d < b)

/-- The scan loop of `findNearestColorWithDist` (jimService.ts lines
341-352): index `i` is the position of the head of the remaining list,
`bestIdx`/`bestDist` the current best; only a strictly smaller distance
replaces the best. -/
def findNearestAux (target : RgbColor) :
    List RgbColor → Nat → Nat → Option Int → Nat × Option Int
  | [], _, bestIdx, bestDist => (bestIdx, bestDist)
  | c :: rest, i, bestIdx, bestDist =>
    if distLt (colorDist target c) bestDist then
      findNearestAux target rest (i + 1) i (some (colorDist target c))
    else
      findNearestAux target rest (i + 1) bestIdx bestDist

/-- `findNearestColorWithDist` (jimService.ts lines 341-352). -/
def findNearestColorWithDist (target : RgbColor) (palette : List RgbColor) :
    Nat × Option Int :=
  findNearestAux target palette 0 0 none

lemma findNearestAux_spec (target : RgbColor) :
    ∀ (l : List RgbColor) (i bi : Nat) (bd : Option Int),
      (findNearestAux target l i bi bd = (bi, bd) ∧
        ∀ m (hm : m < l.length), distLt (colorDist target l[m]) bd = false) ∨
      (∃ k, ∃ hk : k < l.length,
        (findNearestAux target l i bi bd).1 = i + k ∧
        (findNearestAux target l i bi bd).2 = some (colorDist target l[k]) ∧
        distLt (colorDist target l[k]) bd = true ∧
        (∀ m (hm : m < l.length), colorDist target l[k] ≤ colorDist target l[m]) ∧
        (∀ m (hm : m < l.length), m < k → colorDist target l[k] < colorDist target l[m])) := by
  intro l
  induction l with
  | nil =>
    intro i bi bd
    left
    exact ⟨rfl, fun m hm => absurd hm (by simp)⟩
  | cons c rest ih =>
    intro i bi bd
    by_cases h : distLt (colorDist target c) bd = true
    · rw [show findNearestAux target (c :: rest) i bi bd =
          findNearestAux target rest (i + 1) i (some (colorDist target c)) by
        simp [findNearestAux, h]]
      rcases ih (i + 1) i (some (colorDist target c)) with ⟨heq, hall⟩ | ⟨k, hk, h1, h2, h3, h4, h5⟩
      · right
        refine ⟨0, by simp, ?_, ?_, ?_, ?_, ?_⟩
        · rw [heq]; simp
        · rw [heq]; simp
        · simpa using h
        · intro m hm
          match m with
          | 0 => simp
          | Nat.succ j =>
            have hj : j < rest.length := by simpa using hm
            have := hall j hj
            simp only [distLt, decide_eq_false_iff_not, not_lt] at this
            simpa using this
        · intro m hm hm0
          omega
      · right
        have hkk : k + 1 < (c :: rest).length := by simp; omega
        refine ⟨k + 1, hkk, ?_, ?_, ?_, ?_, ?_⟩
        · rw [h1]; omega
        · rw [h2]; simp
        · have hlt : colorDist target rest[k] < colorDist target c := by
            simpa [distLt] using h3
          cases bd with
          | none => simp [distLt]
          | some b =>
            have hcb : colorDist target c < b := by simpa [distLt] using h
            simp only [distLt, List.getElem_cons_succ, decide_eq_true_eq]
            omega
        · intro m hm
          match m with
          | 0 =>
            have hlt : colorDist target rest[k] < colorDist target c := by
              simpa [distLt] using h3
            simp only [List.getElem_cons_succ, List.getElem_cons_zero]
            omega
          | Nat.succ j =>
            have hj : j < rest.length := by simpa using hm
            simpa using h4 j hj
        · intro m hm hmk
          match m with
          | 0 =>
            have hlt : colorDist target rest[k] < colorDist target c := by
              simpa [distLt] using h3
            simpa using hlt
          | Nat.succ j =>
            have hj : j < rest.length := by simpa using hm
            have := h5 j hj (by omega)
            simpa using this
    · have hfalse : distLt (colorDist target c) bd = false := by
        revert h; cases distLt (colorDist target c) bd <;> simp
      rw [show findNearestAux target (c :: rest) i bi bd =
          findNearestAux target rest (i + 1) bi bd by
        simp [findNearestAux, hfalse]]
      obtain ⟨b, rfl⟩ : ∃ b, bd = some b := by
        cases bd with
        | none => simp [distLt] at hfalse
        | some b => exact ⟨b, rfl⟩
      have hcb : b ≤ colorDist target c := by
        simpa [distLt] using hfalse
      rcases ih (i + 1) bi (some b) with ⟨heq, hall⟩ | ⟨k, hk, h1, h2, h3, h4, h5⟩
      · left
        refine ⟨heq, ?_⟩
        intro m hm
        match m with
        | 0 => simpa using hfalse
        | Nat.succ j =>
          have hj : j < rest.length := by simpa using hm
          simpa using hall j hj
      · right
        have hkb : colorDist target rest[k] < b := by simpa [distLt] using h3
        have hkk : k + 1 < (c :: rest).length := by simp; omega
        refine ⟨k + 1, hkk, ?_, ?_, ?_, ?_, ?_⟩
        · rw [h1]; omega
        · rw [h2]; simp
        · simp only [distLt, List.getElem_cons_succ, decide_eq_true_eq]
          omega
        · intro m hm
          match m with
          | 0 =>
            simp only [List.getElem_cons_succ, List.getElem_cons_zero]
            omega
          | Nat.succ j =>
            have hj : j < rest.length := by simpa using hm
            simpa using h4 j hj
        · intro m hm hmk
          match m with
          | 0 =>
            simp only [List.getElem_cons_succ, List.getElem_cons_zero]
            omega
          | Nat.succ j =>
            have hj : j < rest.length := by simpa using hm
            have := h5 j hj (by omega)
            simpa using this

/-- C6: the nearest-color scan proceeds in order 0..N-1, only a strictly
smaller squared distance replaces the current best, so on ties the lowest
palette index wins. -/
theorem nearest_color_tiebreak (target : RgbColor) (pal : List RgbColor) (j : Nat)
    (hj : j < pal.length) :
    (findNearestColorWithDist target pal).1 < pal.length ∧
    ∃ d : Int,
      (findNearestColorWithDist target pal).2 = some d ∧
      d = colorDist target (pal.getD (findNearestColorWithDist target pal).1 ⟨0, 0, 0⟩) ∧
      d ≤ colorDist target pal[j] ∧
      (d = colorDist target pal[j] → (findNearestColorWithDist target pal).1 ≤ j) := by
  unfold findNearestColorWithDist
  rcases findNearestAux_spec target pal 0 0 none with ⟨heq, hall⟩ | ⟨k, hk, h1, h2, h3, h4, h5⟩
  · exact absurd (hall j hj) (by simp [distLt])
  · have hres : (findNearestAux target pal 0 0 none).1 = k := by rw [h1]; omega
    constructor
    · omega
    · refine ⟨colorDist target pal[k], h2, ?_, h4 j hj, ?_⟩
      · rw [hres, List.getD_eq_getElem _ _ hk]
      · intro heqd
        by_contra hgt
        rw [hres] at hgt
        have hjk : j < k := by omega
        have := h5 j hj hjk
        omega

/-- Witness for C6: a two-color palette with a tie at distance 1;
index 0 wins. -/
theorem nearest_color_tiebreak_witness :
    (findNearestColorWithDist ⟨0, 0, 0⟩ [⟨1, 0, 0⟩, ⟨0, 1, 0⟩]).1 <
        ([⟨1, 0, 0⟩, ⟨0, 1, 0⟩] : List RgbColor).length ∧
    ∃ d : Int,
      (findNearestColorWithDist ⟨0, 0, 0⟩ [⟨1, 0, 0⟩, ⟨0, 1, 0⟩]).2 = some d ∧
      d = colorDist ⟨0, 0, 0⟩
        (([⟨1, 0, 0⟩, ⟨0, 1, 0⟩] : List RgbColor).getD
          (findNearestColorWithDist ⟨0, 0, 0⟩ [⟨1, 0, 0⟩, ⟨0, 1, 0⟩]).1 ⟨0, 0, 0⟩) ∧
      d ≤ colorDist ⟨0, 0, 0⟩ (([⟨1, 0, 0⟩, ⟨0, 1, 0⟩] : List RgbColor)[1]) ∧
      (d = colorDist ⟨0, 0, 0⟩ (([⟨1, 0, 0⟩, ⟨0, 1, 0⟩] : List RgbColor)[1]) →
        (findNearestColorWithDist ⟨0, 0, 0⟩ [⟨1, 0, 0⟩, ⟨0, 1, 0⟩]).1 ≤ 1) :=
  nearest_color_tiebreak ⟨0, 0, 0⟩ [⟨1, 0, 0⟩, ⟨0, 1, 0⟩] 1 (by norm_num)

/-- Big-endian `DataView.getUint16`: fails (throws `RangeError`) when the
read would pass the end of the buffer. -/
def readU16 (b : List Nat) (off : Nat) : Option Nat :=
  if off + 2 ≤ b.length then some (b.getD off 0 * 256 + b.getD (off + 1) 0)
  else none

/-- Big-endian `DataView.getUint32` with the same bounds behavior. -/
def readU32 (b : List Nat) (off : Nat) : Option Nat :=
  if off + 4 ≤ b.length then
    some (b.getD off 0 * 16777216 + b.getD (off + 1) 0 * 65536 +
      b.getD (off + 2) 0 * 256 + b.getD (off + 3) 0)
  else none

/-- The value a successful big-endian 16-bit read returns. -/
def valU16 (b : List Nat) (off : Nat) : Nat :=
  b.getD off 0 * 256 + b.getD (off + 1) 0

/-- The value a successful big-endian 32-bit read returns. -/
def valU32 (b : List Nat) (off : Nat) : Nat :=
  b.getD off 0 * 16777216 + b.getD (off + 1) 0 * 65536 +
    b.getD (off + 2) 0 * 256 + b.getD (off + 3) 0

/-- The map-cell bit layout extraction of `parseJimFile` (jimService.ts
lines 93-97): bit 15 priority, bits 14-13 palette, bit 12 vFlip, bit 11
hFlip, bits 10-0 tile index. -/
def decodeCell (cell : Nat) : MapCell :=
  { tileIndex := cell % 2048
    paletteIndex := cell / 8192 % 4
    hFlip := cell / 2048 % 2 == 1
    vFlip := cell / 4096 % 2 == 1
    priority := cell / 32768 % 2 == 1 }

/-- The map-cell packing of `createJimFile` (jimService.ts lines 167-171);
the bit fields are disjoint so the bitwise ORs are additions. -/
def encodeCell (cell : MapCell) : Nat :=
  cell.tileIndex % 2048 +
  (if cell.hFlip then 2048 else 0) +
  (if cell.vFlip then 4096 else 0) +
  cell.paletteIndex % 4 * 8192 +
  (if cell.priority then 32768 else 0)

/-- Big-endian `DataView.setUint16` output bytes (value truncated). -/
def writeU16 (n : Nat) : List Nat := [n / 256 % 256, n % 256]

/-- Big-endian `DataView.setUint32` output bytes (value truncated). -/
def writeU32 (n : Nat) : List Nat :=
  [n / 16777216 % 256, n / 65536 % 256, n / 256 % 256, n % 256]

/-- `parseJimFile` (jimService.ts lines 50-117).  `DataView` reads are
bounds-checked (`Option`); the tile-table reads go through
`Uint8Array.slice`, which clamps, and missing bytes read as 0. -/
def parseJimFile (b : List Nat) : Option JimData := do
  let palOffset ← readU32 b 0
  let mapOffset ← readU32 b 4
  let numStamps ← readU16 b 8
  let tiles := (List.range numStamps).map fun i =>
    decodeTile ((b.drop (10 + i * 32)).take 32)
  let palettes ← (List.range 4).mapM fun palIdx =>
    (List.range 16).mapM fun colIdx =>
      (readU16 b (palOffset + palIdx * 32 + colIdx * 2)).map parseGenesisColor
  let mapWidth ← readU16 b mapOffset
  let mapHeight ← readU16 b (mapOffset + 2)
  let mapData ← (List.range mapHeight).mapM fun y =>
    (List.range mapWidth).mapM fun x =>
      (readU16 b (mapOffset + 4 + (y * mapWidth + x) * 2)).map decodeCell
  some { palettes := palettes, tiles := tiles, mapWidth := mapWidth,
         mapHeight := mapHeight, mapData := mapData }

/-- `createJimFile` (jimService.ts lines 119-179).  The source fills a
zero-initialized buffer of exactly the computed total size with abutting
writes in this order; for a document with 4 palettes of 16 colors and a
map of the declared dimensions those writes tile the buffer exactly, so
the result is this concatenation. -/
def createJimFile (jim : JimData) : List Nat :=
  let numStamps := jim.tiles.length
  let palOffset := 10 + numStamps * 32
  let mapOffset := palOffset + 128
  writeU32 palOffset ++ writeU32 mapOffset ++ writeU16 numStamps ++
  (jim.tiles.map encodeTile).flatten ++
  (jim.palettes.map fun pal =>
    (pal.map fun color => writeU16 (rgbToGenesisColor color)).flatten).flatten ++
  writeU16 jim.mapWidth ++ writeU16 jim.mapHeight ++
  (jim.mapData.map fun row =>
    (row.map fun cell => writeU16 (encodeCell cell)).flatten).flatten

lemma writeU16_length (n : Nat) : (writeU16 n).length = 2 := rfl

lemma writeU32_length (n : Nat) : (writeU32 n).length = 4 := rfl

lemma readU16_writeU16 (n : Nat) (rest : List Nat) :
    readU16 (writeU16 n ++ rest) 0 = some (n % 65536) := by
  simp only [readU16, writeU16, List.cons_append, List.nil_append,
    List.getD_cons_zero, List.getD_cons_succ, List.length_cons]
  rw [if_pos (by omega)]
  congr 1
  omega

lemma readU32_writeU32 (n : Nat) (rest : List Nat) :
    readU32 (writeU32 n ++ rest) 0 = some (n % 4294967296) := by
  simp only [readU32, writeU32, List.cons_append, List.nil_append,
    List.getD_cons_zero, List.getD_cons_succ, List.length_cons]
  rw [if_pos (by omega)]
  congr 1
  omega

lemma readU16_append_right (a r : List Nat) (k : Nat) :
    readU16 (a ++ r) (a.length + k) = readU16 r k := by
  have h1 : (a ++ r).getD (a.length + k) 0 = r.getD k 0 := by
    rw [List.getD_append_right _ _ _ _ (by omega)]
    congr 1
    omega
  have h2 : (a ++ r).getD (a.length + k + 1) 0 = r.getD (k + 1) 0 := by
    rw [List.getD_append_right _ _ _ _ (by omega)]
    congr 1
    omega
  by_cases hk : k + 2 ≤ r.length
  · rw [readU16, readU16, if_pos (by simp [List.length_append]; omega),
      if_pos hk, h1, h2]
  · rw [readU16, readU16, if_neg (by simp [List.length_append]; omega),
      if_neg hk]

lemma readU32_append_right (a r : List Nat) (k : Nat) :
    readU32 (a ++ r) (a.length + k) = readU32 r k := by
  have h1 : ∀ j, (a ++ r).getD (a.length + k + j) 0 = r.getD (k + j) 0 := by
    intro j
    rw [List.getD_append_right _ _ _ _ (by omega)]
    congr 1
    omega
  have h0 := h1 0
  by_cases hk : k + 4 ≤ r.length
  · rw [readU32, readU32, if_pos (by simp [List.length_append]; omega), if_pos hk]
    rw [show a.length + k = a.length + k + 0 from by omega, h1 0, h1 1, h1 2, h1 3]
    norm_num
  · rw [readU32, readU32, if_neg (by simp [List.length_append]; omega),
      if_neg hk]

lemma readU16_append_left (a r : List Nat) (k : Nat) (h : k + 2 ≤ a.length) :
    readU16 (a ++ r) k = readU16 a k := by
  rw [readU16, readU16, if_pos (by simp [List.length_append]; omega), if_pos h,
    List.getD_append _ _ _ _ (by omega), List.getD_append _ _ _ _ (by omega)]

lemma flatten_chunks_length {A : Type _} (l : List A) (g : A → List Nat) (K : Nat)
    (hg : ∀ x ∈ l, (g x).length = K) : ((l.map g).flatten).length = K * l.length := by
  induction l with
  | nil => simp
  | cons x xs ih =>
    simp only [List.map_cons, List.flatten_cons, List.length_append, List.length_cons]
    rw [hg x (by simp), ih (fun a ha => hg a (by simp [ha]))]
    ring

lemma flatten_chunks_extract {A : Type _} (d : A) (g : A → List Nat) (K : Nat) :
    ∀ (l : List A), (∀ x ∈ l, (g x).length = K) →
      ∀ i : Nat, i < l.length → ∀ rest : List Nat,
        (((l.map g).flatten ++ rest).drop (K * i)).take K = g (l.getD i d) := by
  intro l
  induction l with
  | nil =>
    intro _ i hi
    simp at hi
  | cons x xs ih =>
    intro hg i hi rest
    match i with
    | 0 =>
      simp only [Nat.mul_zero, List.drop_zero, List.map_cons, List.flatten_cons,
        List.getD_cons_zero]
      rw [List.append_assoc]
      have hx : K = (g x).length := (hg x (by simp)).symm
      rw [hx, show (g x).length = (g x).length + 0 from by omega, List.take_append,
        List.take_zero, List.append_nil]
    | Nat.succ j =>
      simp only [List.map_cons, List.flatten_cons, List.getD_cons_succ]
      rw [List.append_assoc,
        show K * (j + 1) = (g x).length + K * j from by rw [hg x (by simp)]; ring,
        List.drop_append]
      exact ih (fun a ha => hg a (by simp [ha])) j (by simpa using hi) rest

lemma mapM_congr_some {A B : Type _} (l : List A) (f : A → Option B) (g : A → B)
    (h : ∀ a ∈ l, f a = some (g a)) : l.mapM f = some (l.map g) := by
  induction l with
  | nil => rfl
  | cons x xs ih =>
    rw [List.mapM_cons, h x (by simp), ih (fun a ha => h a (by simp [ha]))]
    rfl

lemma mapM_isSome_iff {A B : Type _} (l : List A) (f : A → Option B) :
    (l.mapM f).isSome = true ↔ ∀ a ∈ l, (f a).isSome = true := by
  induction l with
  | nil =>
    rw [List.mapM_nil]
    simp
  | cons x xs ih =>
    rw [List.mapM_cons]
    constructor
    · intro h a ha
      cases hfx : f x with
      | none =>
        rw [hfx] at h
        simp at h
      | some y =>
        rw [hfx] at h
        cases hm : xs.mapM f with
        | none =>
          rw [hm] at h
          simp at h
        | some ys =>
          rcases List.mem_cons.mp ha with rfl | hmem
          · simp [hfx]
          · exact (ih.mp (by rw [hm]; simp)) a hmem
    · intro h
      obtain ⟨y, hy⟩ := Option.isSome_iff_exists.mp (h x (by simp))
      have hxs : ∀ a ∈ xs, (f a).isSome = true := fun a ha => h a (by simp [ha])
      obtain ⟨ys, hys⟩ := Option.isSome_iff_exists.mp (ih.mpr hxs)
      rw [hy, hys]
      simp

lemma map_range_getD {A B : Type _} (l : List A) (f : A → B) (d : A) :
    (List.range l.length).map (fun i => f (l.getD i d)) = l.map f := by
  induction l with
  | nil => simp
  | cons x xs ih =>
    rw [List.length_cons, List.range_succ_eq_map, List.map_cons, List.map_map,
      List.getD_cons_zero, List.map_cons]
    have hcomp : ((fun i => f ((x :: xs).getD i d)) ∘ Nat.succ) =
        fun i => f (xs.getD i d) := by
      funext i
      simp
    rw [hcomp, ih]

lemma readU16_pairs {A : Type _} (d : A) (f : A → Nat) :
    ∀ (l : List A) (c : Nat), c < l.length →
      readU16 ((l.map fun x => writeU16 (f x)).flatten) (2 * c) =
        some (f (l.getD c d) % 65536) := by
  intro l
  induction l with
  | nil =>
    intro c hc
    simp at hc
  | cons x xs ih =>
    intro c hc
    match c with
    | 0 =>
      simp only [List.map_cons, List.flatten_cons, Nat.mul_zero, List.getD_cons_zero]
      exact readU16_writeU16 _ _
    | Nat.succ j =>
      simp only [List.map_cons, List.flatten_cons, List.getD_cons_succ]
      rw [show 2 * (j + 1) = (writeU16 (f x)).length + 2 * j from by
        rw [writeU16_length]; ring]
      rw [readU16_append_right]
      exact ih j (by simpa using hc)

lemma readU16_chunks {A : Type _} (d : A) (g : A → List Nat) (K : Nat) :
    ∀ (l : List A), (∀ x ∈ l, (g x).length = K) →
      ∀ p : Nat, p < l.length → ∀ (rest : List Nat) (j : Nat), j + 2 ≤ K →
        readU16 ((l.map g).flatten ++ rest) (K * p + j) =
          readU16 (g (l.getD p d)) j := by
  intro l
  induction l with
  | nil =>
    intro _ p hp
    simp at hp
  | cons x xs ih =>
    intro hg p hp rest j hj
    match p with
    | 0 =>
      simp only [List.map_cons, List.flatten_cons, Nat.mul_zero, Nat.zero_add,
        List.getD_cons_zero]
      rw [List.append_assoc,
        readU16_append_left _ _ _ (by rw [hg x (by simp)]; omega)]
    | Nat.succ q =>
      simp only [List.map_cons, List.flatten_cons, List.getD_cons_succ]
      rw [List.append_assoc,
        show K * (q + 1) + j = (g x).length + (K * q + j) from by
          rw [hg x (by simp)]; ring]
      rw [readU16_append_right]
      exact ih (fun a ha => hg a (by simp [ha])) q (by simpa using hp) _ j hj

lemma encodeTile_length (t : TileData) : (encodeTile t).length = 32 := rfl

lemma rgbToGenesisColor_lt (c : RgbColor) : rgbToGenesisColor c < 65536 := by
  rw [rgbToGenesisColor_decomp]
  have h1 : min 7 (c.b / 36) ≤ 7 := Nat.min_le_left _ _
  have h2 : min 7 (c.g / 36) ≤ 7 := Nat.min_le_left _ _
  have h3 : min 7 (c.r / 36) ≤ 7 := Nat.min_le_left _ _
  omega

lemma encodeCell_lt (cell : MapCell) : encodeCell cell < 65536 := by
  obtain ⟨ti, pi, hf, vf, pr⟩ := cell
  simp only [encodeCell]
  have h1 : ti % 2048 < 2048 := by omega
  have h2 : pi % 4 < 4 := by omega
  cases hf <;> cases vf <;> cases pr <;> simp <;> omega

lemma encodeCell_decodeCell (m : Nat) : encodeCell (decodeCell m) = m % 65536 := by
  simp only [encodeCell, decodeCell]
  have h1 : m / 2048 % 2 = 0 ∨ m / 2048 % 2 = 1 := by omega
  have h2 : m / 4096 % 2 = 0 ∨ m / 4096 % 2 = 1 := by omega
  have h3 : m / 32768 % 2 = 0 ∨ m / 32768 % 2 = 1 := by omega
  rcases h1 with h1 | h1 <;> rcases h2 with h2 | h2 <;> rcases h3 with h3 | h3 <;>
    simp [h1, h2, h3] <;> omega

lemma encodeCell_stab (cell : MapCell) :
    encodeCell (decodeCell (encodeCell cell)) = encodeCell cell := by
  rw [encodeCell_decodeCell]
  exact Nat.mod_eq_of_lt (encodeCell_lt cell)

lemma rgbToGenesisColor_stab (c : RgbColor) :
    rgbToGenesisColor (parseGenesisColor (rgbToGenesisColor c)) =
      rgbToGenesisColor c := by
  obtain ⟨r, g, b⟩ := c
  obtain ⟨_, hr2, _, hr4⟩ := genesisChannel_facts r
  obtain ⟨_, hg2, _, hg4⟩ := genesisChannel_facts g
  obtain ⟨_, hb2, _, hb4⟩ := genesisChannel_facts b
  have hparse :
      parseGenesisColor (rgbToGenesisColor ⟨r, g, b⟩) =
        ⟨min 7 (r / 36) * 36, min 7 (g / 36) * 36, min 7 (b / 36) * 36⟩ := by
    rw [rgbToGenesisColor_decomp]
    exact parseGenesisColor_pack _ _ _ hr2 hg2 hb2
  rw [hparse, rgbToGenesisColor_decomp, rgbToGenesisColor_decomp]
  simp only [hr4, hg4, hb4]

lemma decodeTile_row (bs : List Nat) (row : Nat) (h : row < 8) :
    (decodeTile bs).getD row [] =
      (List.range 4).flatMap fun col =>
        [bs.getD (row * 4 + col) 0 / 16 % 16, bs.getD (row * 4 + col) 0 % 16] := by
  simp [decodeTile, List.getD_eq_getElem?_getD, List.getElem?_map,
    List.getElem?_range h]

lemma encodeTile_congr (a b : TileData)
    (h : ∀ row x : Nat, row < 8 → x < 8 →
      (a.getD row []).getD x 0 % 16 = (b.getD row []).getD x 0 % 16) :
    encodeTile a = encodeTile b := by
  show ((List.range 8).map fun row => (List.range 4).map fun col =>
      (a.getD row []).getD (col * 2) 0 % 16 * 16 +
      (a.getD row []).getD (col * 2 + 1) 0 % 16).flatten =
    ((List.range 8).map fun row => (List.range 4).map fun col =>
      (b.getD row []).getD (col * 2) 0 % 16 * 16 +
      (b.getD row []).getD (col * 2 + 1) 0 % 16).flatten
  apply congrArg List.flatten
  apply List.map_congr_left
  intro row hrowmem
  have hrow : row < 8 := List.mem_range.mp hrowmem
  apply List.map_congr_left
  intro col hcolmem
  have hcol : col < 4 := List.mem_range.mp hcolmem
  rw [h row (col * 2) hrow (by omega), h row (col * 2 + 1) hrow (by omega)]

lemma encode_decode_encode (t : TileData) :
    encodeTile (decodeTile (encodeTile t)) = encodeTile t := by
  apply encodeTile_congr
  intro row x hrow hx
  rw [decodeTile_row _ _ hrow]
  interval_cases x <;>
    simp only [rangeFour_eq, List.flatMap_cons, List.flatMap_nil,
      List.cons_append, List.nil_append, List.append_nil,
      List.getD_cons_zero, List.getD_cons_succ] <;>
    rw [encodeTile_getD t row _ hrow (by norm_num)] <;>
    norm_num <;>
    omega

lemma readU16_at (a r : List Nat) (off k : Nat) (h : off = a.length + k) :
    readU16 (a ++ r) off = readU16 r k := by
  rw [h, readU16_append_right]

lemma readU32_at (a r : List Nat) (off k : Nat) (h : off = a.length + k) :
    readU32 (a ++ r) off = readU32 r k := by
  rw [h, readU32_append_right]

lemma drop_at (a r : List Nat) (off k : Nat) (h : off = a.length + k) :
    (a ++ r).drop off = r.drop k := by
  rw [h, List.drop_append]

/-- Well-formedness of a `JimData`, as maintained by every producer in the
source and assumed by `createJimFile`'s exact-fit buffer layout: 4 palettes
of 16 colors, a map of the declared dimensions, and 16-bit-representable
counts. -/
def wellFormedJim (jim : JimData) : Prop :=
  jim.palettes.length = 4 ∧ (∀ pal ∈ jim.palettes, pal.length = 16) ∧
  jim.mapData.length = jim.mapHeight ∧
  (∀ row ∈ jim.mapData, row.length = jim.mapWidth) ∧
  jim.tiles.length < 65536 ∧ jim.mapWidth < 65536 ∧ jim.mapHeight < 65536

/-- The document `parseJimFile` recovers from `createJimFile jim`: every
tile, color and cell has made a round trip through its codec. -/
def reparseJim (jim : JimData) : JimData :=
  { palettes := (List.range 4).map fun p => (List.range 16).map fun c =>
      parseGenesisColor (rgbToGenesisColor ((jim.palettes.getD p []).getD c ⟨0, 0, 0⟩))
    tiles := (List.range jim.tiles.length).map fun i =>
      decodeTile (encodeTile (jim.tiles.getD i []))
    mapWidth := jim.mapWidth
    mapHeight := jim.mapHeight
    mapData := (List.range jim.mapHeight).map fun y =>
      (List.range jim.mapWidth).map fun x =>
        decodeCell (encodeCell ((jim.mapData.getD y []).getD x ⟨0, 0, false, false, false⟩)) }

lemma createJimFile_assoc (jim : JimData) :
    createJimFile jim =
      writeU32 (10 + jim.tiles.length * 32) ++ (writeU32 (10 + jim.tiles.length * 32 + 128) ++ (writeU16 jim.tiles.length ++ ((jim.tiles.map encodeTile).flatten ++ ((jim.palettes.map fun pal =>
        (pal.map fun color => writeU16 (rgbToGenesisColor color)).flatten).flatten ++ (writeU16 jim.mapWidth ++ (writeU16 jim.mapHeight ++ (jim.mapData.map fun row =>
        (row.map fun cell => writeU16 (encodeCell cell)).flatten).flatten)))))) := by
  simp [createJimFile, List.append_assoc]

lemma parseJimFile_createJimFile (jim : JimData) (hwf : wellFormedJim jim) :
    parseJimFile (createJimFile jim) = some (reparseJim jim) := by
  obtain ⟨hp4, hp16, hmh, hmw, hN, hW, hH⟩ := hwf
  have hbuf := createJimFile_assoc jim
  have hTBlen : ((jim.tiles.map encodeTile).flatten).length = 32 * jim.tiles.length :=
    flatten_chunks_length _ _ 32 (fun x _ => encodeTile_length x)
  have hPBchunk : ∀ pal ∈ jim.palettes,
      ((pal.map fun color => writeU16 (rgbToGenesisColor color)).flatten).length = 32 := by
    intro pal hmem
    rw [flatten_chunks_length _ _ 2 (fun c _ => writeU16_length _), hp16 pal hmem]
  have hPBlen : ((jim.palettes.map fun pal =>
        (pal.map fun color => writeU16 (rgbToGenesisColor color)).flatten).flatten).length = 128 := by
    rw [flatten_chunks_length _ _ 32 hPBchunk, hp4]
  have hMBchunk : ∀ row ∈ jim.mapData,
      ((row.map fun cell => writeU16 (encodeCell cell)).flatten).length =
        2 * jim.mapWidth := by
    intro row hmem
    rw [flatten_chunks_length _ _ 2 (fun c _ => writeU16_length _), hmw row hmem]
  have e1 : readU32 (createJimFile jim) 0 = some (10 + jim.tiles.length * 32) := by
    rw [hbuf, readU32_writeU32]
    congr 1
    omega
  have e2 : readU32 (createJimFile jim) 4 =
      some (10 + jim.tiles.length * 32 + 128) := by
    rw [hbuf, readU32_at (writeU32 (10 + jim.tiles.length * 32)) _ 4 0 (by simp [writeU32_length]; try omega), readU32_writeU32]
    congr 1
    omega
  have e3 : readU16 (createJimFile jim) 8 = some jim.tiles.length := by
    rw [hbuf, readU16_at (writeU32 (10 + jim.tiles.length * 32)) _ 8 4 (by simp [writeU32_length]; try omega),
      readU16_at (writeU32 (10 + jim.tiles.length * 32 + 128)) _ 4 0 (by simp [writeU32_length]; try omega), readU16_writeU16]
    congr 1
    omega
  have et : ∀ i, i < jim.tiles.length →
      ((createJimFile jim).drop (10 + i * 32)).take 32 =
        encodeTile (jim.tiles.getD i []) := by
    intro i hi
    rw [hbuf, drop_at (writeU32 (10 + jim.tiles.length * 32)) _ (10 + i * 32) (6 + i * 32) (by simp [writeU32_length]; try omega),
      drop_at (writeU32 (10 + jim.tiles.length * 32 + 128)) _ (6 + i * 32) (2 + i * 32) (by simp [writeU32_length]; try omega),
      drop_at (writeU16 jim.tiles.length) _ (2 + i * 32) (i * 32) (by simp [writeU16_length]; try omega),
      show i * 32 = 32 * i from by ring]
    exact flatten_chunks_extract [] encodeTile 32 jim.tiles
      (fun x _ => encodeTile_length x) i hi _
  have epal : ∀ p, p < 4 → ∀ c, c < 16 →
      readU16 (createJimFile jim) (10 + jim.tiles.length * 32 + p * 32 + c * 2) =
        some (rgbToGenesisColor ((jim.palettes.getD p []).getD c ⟨0, 0, 0⟩)) := by
    intro p hp c hc
    have hpalmem : jim.palettes.getD p [] ∈ jim.palettes := by
      rw [List.getD_eq_getElem _ _ (by omega)]
      exact List.getElem_mem _
    rw [hbuf,
      readU16_at (writeU32 (10 + jim.tiles.length * 32)) _ (10 + jim.tiles.length * 32 + p * 32 + c * 2)
        (6 + jim.tiles.length * 32 + p * 32 + c * 2) (by simp [writeU32_length]; try omega),
      readU16_at (writeU32 (10 + jim.tiles.length * 32 + 128)) _ (6 + jim.tiles.length * 32 + p * 32 + c * 2)
        (2 + jim.tiles.length * 32 + p * 32 + c * 2) (by simp [writeU32_length]; try omega),
      readU16_at (writeU16 jim.tiles.length) _ (2 + jim.tiles.length * 32 + p * 32 + c * 2)
        (jim.tiles.length * 32 + p * 32 + c * 2) (by simp [writeU16_length]; try omega),
      readU16_at ((jim.tiles.map encodeTile).flatten) _ (jim.tiles.length * 32 + p * 32 + c * 2)
        (p * 32 + c * 2) (by rw [hTBlen]; ring),
      show p * 32 + c * 2 = 32 * p + 2 * c from by ring,
      readU16_chunks [] _ 32 jim.palettes hPBchunk p (by omega) _ (2 * c) (by omega),
      readU16_pairs ⟨0, 0, 0⟩ rgbToGenesisColor (jim.palettes.getD p []) c
        (by rw [hp16 _ hpalmem]; omega)]
    congr 1
    exact Nat.mod_eq_of_lt (rgbToGenesisColor_lt _)
  have e4 : (List.range 4).mapM (fun palIdx => (List.range 16).mapM fun colIdx =>
      (readU16 (createJimFile jim)
        (10 + jim.tiles.length * 32 + palIdx * 32 + colIdx * 2)).map parseGenesisColor) =
      some ((List.range 4).map fun p => (List.range 16).map fun c =>
        parseGenesisColor (rgbToGenesisColor ((jim.palettes.getD p []).getD c ⟨0, 0, 0⟩))) := by
    apply mapM_congr_some
    intro p hpmem
    apply mapM_congr_some
    intro c hcmem
    rw [epal p (List.mem_range.mp hpmem) c (List.mem_range.mp hcmem)]
    rfl
  have e6 : readU16 (createJimFile jim) (10 + jim.tiles.length * 32 + 128) =
      some jim.mapWidth := by
    rw [hbuf,
      readU16_at (writeU32 (10 + jim.tiles.length * 32)) _ (10 + jim.tiles.length * 32 + 128)
        (6 + jim.tiles.length * 32 + 128) (by simp [writeU32_length]; try omega),
      readU16_at (writeU32 (10 + jim.tiles.length * 32 + 128)) _ (6 + jim.tiles.length * 32 + 128)
        (2 + jim.tiles.length * 32 + 128) (by simp [writeU32_length]; try omega),
      readU16_at (writeU16 jim.tiles.length) _ (2 + jim.tiles.length * 32 + 128)
        (jim.tiles.length * 32 + 128) (by simp [writeU16_length]; try omega),
      readU16_at ((jim.tiles.map encodeTile).flatten) _ (jim.tiles.length * 32 + 128) 128 (by rw [hTBlen]; ring),
      readU16_at ((jim.palettes.map fun pal =>
        (pal.map fun color => writeU16 (rgbToGenesisColor color)).flatten).flatten) _ 128 0 (by rw [hPBlen]),
      readU16_writeU16]
    congr 1
    omega
  have e7 : readU16 (createJimFile jim) (10 + jim.tiles.length * 32 + 128 + 2) =
      some jim.mapHeight := by
    rw [hbuf,
      readU16_at (writeU32 (10 + jim.tiles.length * 32)) _ (10 + jim.tiles.length * 32 + 128 + 2)
        (6 + jim.tiles.length * 32 + 128 + 2) (by simp [writeU32_length]; try omega),
      readU16_at (writeU32 (10 + jim.tiles.length * 32 + 128)) _ (6 + jim.tiles.length * 32 + 128 + 2)
        (2 + jim.tiles.length * 32 + 128 + 2) (by simp [writeU32_length]; try omega),
      readU16_at (writeU16 jim.tiles.length) _ (2 + jim.tiles.length * 32 + 128 + 2)
        (jim.tiles.length * 32 + 128 + 2) (by simp [writeU16_length]; try omega),
      readU16_at ((jim.tiles.map encodeTile).flatten) _ (jim.tiles.length * 32 + 128 + 2) (128 + 2)
        (by rw [hTBlen]; ring),
      readU16_at ((jim.palettes.map fun pal =>
        (pal.map fun color => writeU16 (rgbToGenesisColor color)).flatten).flatten) _ (128 + 2) 2 (by rw [hPBlen]),
      readU16_at (writeU16 jim.mapWidth) _ 2 0 (by simp [writeU16_length]; try omega),
      readU16_writeU16]
    congr 1
    omega
  have ecell : ∀ y, y < jim.mapHeight → ∀ x, x < jim.mapWidth →
      readU16 (createJimFile jim)
        (10 + jim.tiles.length * 32 + 128 + 4 + (y * jim.mapWidth + x) * 2) =
      some (encodeCell
        ((jim.mapData.getD y []).getD x ⟨0, 0, false, false, false⟩)) := by
    intro y hy x hx
    have hrowmem : jim.mapData.getD y [] ∈ jim.mapData := by
      rw [List.getD_eq_getElem _ _ (by omega)]
      exact List.getElem_mem _
    rw [hbuf,
      readU16_at (writeU32 (10 + jim.tiles.length * 32)) _ (10 + jim.tiles.length * 32 + 128 + 4 + (y * jim.mapWidth + x) * 2)
        (6 + jim.tiles.length * 32 + 128 + 4 + (y * jim.mapWidth + x) * 2)
        (by simp [writeU32_length]; try omega),
      readU16_at (writeU32 (10 + jim.tiles.length * 32 + 128)) _ (6 + jim.tiles.length * 32 + 128 + 4 + (y * jim.mapWidth + x) * 2)
        (2 + jim.tiles.length * 32 + 128 + 4 + (y * jim.mapWidth + x) * 2)
        (by simp [writeU32_length]; try omega),
      readU16_at (writeU16 jim.tiles.length) _ (2 + jim.tiles.length * 32 + 128 + 4 + (y * jim.mapWidth + x) * 2)
        (jim.tiles.length * 32 + 128 + 4 + (y * jim.mapWidth + x) * 2)
        (by simp [writeU16_length]; try omega),
      readU16_at ((jim.tiles.map encodeTile).flatten) _ (jim.tiles.length * 32 + 128 + 4 + (y * jim.mapWidth + x) * 2)
        (128 + 4 + (y * jim.mapWidth + x) * 2) (by rw [hTBlen]; ring),
      readU16_at ((jim.palettes.map fun pal =>
        (pal.map fun color => writeU16 (rgbToGenesisColor color)).flatten).flatten) _ (128 + 4 + (y * jim.mapWidth + x) * 2)
        (4 + (y * jim.mapWidth + x) * 2) (by rw [hPBlen]; omega),
      readU16_at (writeU16 jim.mapWidth) _ (4 + (y * jim.mapWidth + x) * 2)
        (2 + (y * jim.mapWidth + x) * 2) (by simp [writeU16_length]; try omega),
      readU16_at (writeU16 jim.mapHeight) _ (2 + (y * jim.mapWidth + x) * 2)
        ((y * jim.mapWidth + x) * 2) (by simp [writeU16_length]; try omega),
      show (y * jim.mapWidth + x) * 2 = 2 * jim.mapWidth * y + 2 * x from by ring,
      show ((jim.mapData.map fun row =>
        (row.map fun cell => writeU16 (encodeCell cell)).flatten).flatten) = ((jim.mapData.map fun row =>
        (row.map fun cell => writeU16 (encodeCell cell)).flatten).flatten) ++ [] from (List.append_nil _).symm,
      readU16_chunks ([] : List MapCell) _ (2 * jim.mapWidth) jim.mapData hMBchunk y
        (by omega) _ (2 * x) (by omega),
      readU16_pairs ⟨0, 0, false, false, false⟩ encodeCell (jim.mapData.getD y []) x
        (by rw [hmw _ hrowmem]; omega)]
    congr 1
    exact Nat.mod_eq_of_lt (encodeCell_lt _)
  have e8 : (List.range jim.mapHeight).mapM (fun y =>
      (List.range jim.mapWidth).mapM fun x =>
        (readU16 (createJimFile jim)
          (10 + jim.tiles.length * 32 + 128 + 4 + (y * jim.mapWidth + x) * 2)).map decodeCell) =
      some ((List.range jim.mapHeight).map fun y =>
        (List.range jim.mapWidth).map fun x =>
          decodeCell (encodeCell
            ((jim.mapData.getD y []).getD x ⟨0, 0, false, false, false⟩))) := by
    apply mapM_congr_some
    intro y hymem
    apply mapM_congr_some
    intro x hxmem
    rw [ecell y (List.mem_range.mp hymem) x (List.mem_range.mp hxmem)]
    rfl
  have etl : (List.range jim.tiles.length).map
      (fun i => decodeTile (((createJimFile jim).drop (10 + i * 32)).take 32)) =
      (List.range jim.tiles.length).map
        (fun i => decodeTile (encodeTile (jim.tiles.getD i []))) := by
    apply List.map_congr_left
    intro i himem
    rw [et i (List.mem_range.mp himem)]
  simp only [parseJimFile, e1, e2, e3, Option.bind_eq_bind, Option.some_bind, etl,
    e4, e6, e7, e8, reparseJim]

set_option maxRecDepth 4000 in
lemma createJimFile_reparseJim (jim : JimData) (hwf : wellFormedJim jim) :
    createJimFile (reparseJim jim) = createJimFile jim := by
  obtain ⟨hp4, hp16, hmh, hmw, hN, hW, hH⟩ := hwf
  have hlen : ((List.range jim.tiles.length).map fun i =>
      decodeTile (encodeTile (jim.tiles.getD i []))).length = jim.tiles.length := by
    simp
  have htiles : ((List.range jim.tiles.length).map fun i =>
      decodeTile (encodeTile (jim.tiles.getD i []))).map encodeTile =
      jim.tiles.map encodeTile := by
    rw [List.map_map]
    have hmid : List.map (encodeTile ∘ fun i => decodeTile (encodeTile (jim.tiles.getD i [])))
        (List.range jim.tiles.length) =
        List.map (fun i => encodeTile (jim.tiles.getD i [])) (List.range jim.tiles.length) := by
      apply List.map_congr_left
      intro i _
      simp only [Function.comp]
      exact encode_decode_encode _
    rw [hmid]
    exact map_range_getD jim.tiles encodeTile []
  have hpal : ((List.range 4).map fun p => (List.range 16).map fun c =>
        parseGenesisColor (rgbToGenesisColor ((jim.palettes.getD p []).getD c ⟨0, 0, 0⟩))).map
        (fun pal => (pal.map fun color => writeU16 (rgbToGenesisColor color)).flatten) =
      jim.palettes.map
        (fun pal => (pal.map fun color => writeU16 (rgbToGenesisColor color)).flatten) := by
    rw [List.map_map]
    have hmid : List.map ((fun pal =>
          (pal.map fun color => writeU16 (rgbToGenesisColor color)).flatten) ∘
        fun p => (List.range 16).map fun c =>
          parseGenesisColor (rgbToGenesisColor ((jim.palettes.getD p []).getD c ⟨0, 0, 0⟩)))
        (List.range 4) =
        List.map (fun p => ((jim.palettes.getD p []).map fun color =>
          writeU16 (rgbToGenesisColor color)).flatten) (List.range 4) := by
      apply List.map_congr_left
      intro p hpmem
      have hp := List.mem_range.mp hpmem
      have hpalmem : jim.palettes.getD p [] ∈ jim.palettes := by
        rw [List.getD_eq_getElem _ _ (by omega)]
        exact List.getElem_mem _
      simp only [Function.comp, List.map_map]
      apply congrArg List.flatten
      have hstep : List.map ((fun color => writeU16 (rgbToGenesisColor color)) ∘ fun c =>
          parseGenesisColor (rgbToGenesisColor ((jim.palettes.getD p []).getD c ⟨0, 0, 0⟩)))
          (List.range 16) =
          List.map (fun c =>
            writeU16 (rgbToGenesisColor ((jim.palettes.getD p []).getD c ⟨0, 0, 0⟩)))
          (List.range 16) := by
        apply List.map_congr_left
        intro c _
        simp only [Function.comp]
        rw [rgbToGenesisColor_stab]
      rw [hstep, ← hp16 _ hpalmem]
      exact map_range_getD (jim.palettes.getD p [])
        (fun color => writeU16 (rgbToGenesisColor color)) ⟨0, 0, 0⟩
    rw [hmid, ← hp4]
    exact map_range_getD jim.palettes
      (fun pal => (pal.map fun color => writeU16 (rgbToGenesisColor color)).flatten) []
  have hcells : ((List.range jim.mapHeight).map fun y =>
        (List.range jim.mapWidth).map fun x =>
          decodeCell (encodeCell
            ((jim.mapData.getD y []).getD x ⟨0, 0, false, false, false⟩))).map
        (fun row => (row.map fun cell => writeU16 (encodeCell cell)).flatten) =
      jim.mapData.map
        (fun row => (row.map fun cell => writeU16 (encodeCell cell)).flatten) := by
    rw [List.map_map]
    have hmid : List.map ((fun row =>
          (row.map fun cell => writeU16 (encodeCell cell)).flatten) ∘
        fun y => (List.range jim.mapWidth).map fun x =>
          decodeCell (encodeCell
            ((jim.mapData.getD y []).getD x ⟨0, 0, false, false, false⟩)))
        (List.range jim.mapHeight) =
        List.map (fun y => ((jim.mapData.getD y []).map fun cell =>
          writeU16 (encodeCell cell)).flatten) (List.range jim.mapHeight) := by
      apply List.map_congr_left
      intro y hymem
      have hy := List.mem_range.mp hymem
      have hrowmem : jim.mapData.getD y [] ∈ jim.mapData := by
        rw [List.getD_eq_getElem _ _ (by omega)]
        exact List.getElem_mem _
      simp only [Function.comp, List.map_map]
      apply congrArg List.flatten
      have hstep : List.map ((fun cell => writeU16 (encodeCell cell)) ∘ fun x =>
          decodeCell (encodeCell
            ((jim.mapData.getD y []).getD x ⟨0, 0, false, false, false⟩)))
          (List.range jim.mapWidth) =
          List.map (fun x =>
            writeU16 (encodeCell
              ((jim.mapData.getD y []).getD x ⟨0, 0, false, false, false⟩)))
          (List.range jim.mapWidth) := by
        apply List.map_congr_left
        intro x _
        simp only [Function.comp]
        rw [encodeCell_stab]
      rw [hstep, ← hmw _ hrowmem]
      exact map_range_getD (jim.mapData.getD y [])
        (fun cell => writeU16 (encodeCell cell)) ⟨0, 0, false, false, false⟩
    rw [hmid, ← hmh]
    exact map_range_getD jim.mapData
      (fun row => (row.map fun cell => writeU16 (encodeCell cell)).flatten) []
  simp only [createJimFile, reparseJim, hlen, htiles, hpal, hcells]

/-- C3: for any well-formed document, serializing, parsing the bytes back,
and serializing again reproduces the original byte buffer exactly —
`serializeNative (parseNative b) = b` for every `b` this codec itself
produced. -/
theorem native_serialize_parse_roundtrip (jim : JimData) (hwf : wellFormedJim jim) :
    ∃ doc : JimData, parseJimFile (createJimFile jim) = some doc ∧
      createJimFile doc = createJimFile jim :=
  ⟨reparseJim jim, parseJimFile_createJimFile jim hwf,
    createJimFile_reparseJim jim hwf⟩

/-- Witness for C3 at a concrete one-tile 1×1-map document. -/
theorem native_serialize_parse_roundtrip_witness :
    wellFormedJim
      { palettes := List.replicate 4 (List.replicate 16 ⟨0, 0, 0⟩)
        tiles := [List.replicate 8 (List.replicate 8 0)]
        mapWidth := 1
        mapHeight := 1
        mapData := [[⟨0, 0, false, false, false⟩]] } ∧
    ∃ doc : JimData,
      parseJimFile (createJimFile
        { palettes := List.replicate 4 (List.replicate 16 ⟨0, 0, 0⟩)
          tiles := [List.replicate 8 (List.replicate 8 0)]
          mapWidth := 1
          mapHeight := 1
          mapData := [[⟨0, 0, false, false, false⟩]] }) = some doc ∧
      createJimFile doc = createJimFile
        { palettes := List.replicate 4 (List.replicate 16 ⟨0, 0, 0⟩)
          tiles := [List.replicate 8 (List.replicate 8 0)]
          mapWidth := 1
          mapHeight := 1
          mapData := [[⟨0, 0, false, false, false⟩]] } :=
  ⟨by refine ⟨by decide, by decide, by decide, by decide, by decide, by decide, by decide⟩,
   native_serialize_parse_roundtrip _
     (by refine ⟨by decide, by decide, by decide, by decide, by decide, by decide, by decide⟩)⟩

lemma readU16_eq_val (b : List Nat) (off : Nat) (h : off + 2 ≤ b.length) :
    readU16 b off = some (valU16 b off) := by
  rw [readU16, valU16, if_pos h]

lemma readU32_eq_val (b : List Nat) (off : Nat) (h : off + 4 ≤ b.length) :
    readU32 b off = some (valU32 b off) := by
  rw [readU32, valU32, if_pos h]

lemma readU16_isSome_iff (b : List Nat) (off : Nat) :
    (readU16 b off).isSome = true ↔ off + 2 ≤ b.length := by
  by_cases h : off + 2 ≤ b.length <;> simp [readU16, h]

lemma readU32_isNone (b : List Nat) (off : Nat) (h : ¬ off + 4 ≤ b.length) :
    readU32 b off = none := by
  rw [readU32, if_neg h]

lemma readU16_isNone (b : List Nat) (off : Nat) (h : ¬ off + 2 ≤ b.length) :
    readU16 b off = none := by
  rw [readU16, if_neg h]

/-- C2 (amended) helper: index arithmetic for the last cell read. -/
lemma lastCell_offset (w h : Nat) (hw : 0 < w) (hh : 0 < h) :
    ((h - 1) * w + (w - 1)) * 2 + 2 = 2 * (w * h) := by
  obtain ⟨h2, rfl⟩ : ∃ h2, h = h2 + 1 := ⟨h - 1, by omega⟩
  obtain ⟨w2, rfl⟩ : ∃ w2, w = w2 + 1 := ⟨w - 1, by omega⟩
  simp only [Nat.add_sub_cancel]
  ring

lemma cell_offset_le (w h y x : Nat) (hy : y < h) (hx : x < w) :
    (y * w + x) * 2 + 2 ≤ 2 * (w * h) := by
  have h1 : y * w + w = (y + 1) * w := by ring
  have h2 : (y + 1) * w ≤ h * w := Nat.mul_le_mul_right w (by omega)
  have h3 : w * h = h * w := Nat.mul_comm w h
  omega

/-- C2 (amended): `parseJimFile` returns no document exactly when the
buffer is too short for the 10-byte header, the 128-byte palette table at
the stored palette offset, the 4-byte map header at the stored map offset,
or the map cells; a buffer too short for the tile table alone does NOT
fail — missing tile bytes silently read as zero. -/
theorem parse_truncation_characterization (b : List Nat) :
    parseJimFile b = none ↔
      (b.length < 10 ∨
       b.length < valU32 b 0 + 128 ∨
       b.length < valU32 b 4 + 4 ∨
       b.length < valU32 b 4 + 4 +
         2 * (valU16 b (valU32 b 4) * valU16 b (valU32 b 4 + 2))) := by
  by_cases h10 : 10 ≤ b.length
  · have e1 : readU32 b 0 = some (valU32 b 0) := readU32_eq_val b 0 (by omega)
    have e2 : readU32 b 4 = some (valU32 b 4) := readU32_eq_val b 4 (by omega)
    have e3 : readU16 b 8 = some (valU16 b 8) := readU16_eq_val b 8 (by omega)
    by_cases hpal : valU32 b 0 + 128 ≤ b.length
    · have e4 : (List.range 4).mapM (fun palIdx => (List.range 16).mapM fun colIdx =>
          (readU16 b (valU32 b 0 + palIdx * 32 + colIdx * 2)).map parseGenesisColor) =
          some ((List.range 4).map fun palIdx => (List.range 16).map fun colIdx =>
            parseGenesisColor (valU16 b (valU32 b 0 + palIdx * 32 + colIdx * 2))) := by
        apply mapM_congr_some
        intro p hpmem
        have hp := List.mem_range.mp hpmem
        apply mapM_congr_some
        intro c hcmem
        have hc := List.mem_range.mp hcmem
        rw [readU16_eq_val b _ (by omega)]
        rfl
      by_cases hmap : valU32 b 4 + 4 ≤ b.length
      · have e5 : readU16 b (valU32 b 4) = some (valU16 b (valU32 b 4)) :=
          readU16_eq_val b _ (by omega)
        have e6 : readU16 b (valU32 b 4 + 2) = some (valU16 b (valU32 b 4 + 2)) :=
          readU16_eq_val b _ (by omega)
        by_cases hcells : valU32 b 4 + 4 +
            2 * (valU16 b (valU32 b 4) * valU16 b (valU32 b 4 + 2)) ≤ b.length
        · have e7 : (List.range (valU16 b (valU32 b 4 + 2))).mapM (fun y =>
              (List.range (valU16 b (valU32 b 4))).mapM fun x =>
                (readU16 b (valU32 b 4 + 4 + (y * valU16 b (valU32 b 4) + x) * 2)).map
                  decodeCell) =
              some ((List.range (valU16 b (valU32 b 4 + 2))).map fun y =>
                (List.range (valU16 b (valU32 b 4))).map fun x =>
                  decodeCell
                    (valU16 b (valU32 b 4 + 4 + (y * valU16 b (valU32 b 4) + x) * 2))) := by
            apply mapM_congr_some
            intro y hymem
            apply mapM_congr_some
            intro x hxmem
            have hy := List.mem_range.mp hymem
            have hx := List.mem_range.mp hxmem
            have hle := cell_offset_le (valU16 b (valU32 b 4))
              (valU16 b (valU32 b 4 + 2)) y x hy hx
            rw [readU16_eq_val b _ (by omega)]
            rfl
          simp only [parseJimFile, e1, e2, e3, e4, e5, e6, e7,
            Option.bind_eq_bind, Option.some_bind]
          constructor
          · intro hcontra
            exact absurd hcontra (by simp)
          · intro hor
            exfalso
            rcases hor with h | h | h | h <;> omega
        · have hw0 : 0 < valU16 b (valU32 b 4) := by
            by_contra hw
            have hz : valU16 b (valU32 b 4) = 0 := by omega
            rw [hz] at hcells
            simp at hcells
            omega
          have hh0 : 0 < valU16 b (valU32 b 4 + 2) := by
            by_contra hh
            have hz : valU16 b (valU32 b 4 + 2) = 0 := by omega
            rw [hz] at hcells
            simp at hcells
            omega
          have hoff := lastCell_offset (valU16 b (valU32 b 4))
            (valU16 b (valU32 b 4 + 2)) hw0 hh0
          have hmm : ((List.range (valU16 b (valU32 b 4 + 2))).mapM fun y =>
              (List.range (valU16 b (valU32 b 4))).mapM fun x =>
                (readU16 b (valU32 b 4 + 4 + (y * valU16 b (valU32 b 4) + x) * 2)).map
                  decodeCell) = none := by
            cases hm : ((List.range (valU16 b (valU32 b 4 + 2))).mapM fun y =>
                (List.range (valU16 b (valU32 b 4))).mapM fun x =>
                  (readU16 b (valU32 b 4 + 4 + (y * valU16 b (valU32 b 4) + x) * 2)).map
                    decodeCell) with
            | none => rfl
            | some v =>
              exfalso
              have hsome : ((List.range (valU16 b (valU32 b 4 + 2))).mapM fun y =>
                  (List.range (valU16 b (valU32 b 4))).mapM fun x =>
                    (readU16 b (valU32 b 4 + 4 + (y * valU16 b (valU32 b 4) + x) * 2)).map
                      decodeCell).isSome = true := by
                rw [hm]
                rfl
              have h1 := (mapM_isSome_iff _ _).mp hsome (valU16 b (valU32 b 4 + 2) - 1)
                (List.mem_range.mpr (by omega))
              have h2 := (mapM_isSome_iff _ _).mp h1 (valU16 b (valU32 b 4) - 1)
                (List.mem_range.mpr (by omega))
              cases hread : readU16 b (valU32 b 4 + 4 +
                  ((valU16 b (valU32 b 4 + 2) - 1) * valU16 b (valU32 b 4) +
                   (valU16 b (valU32 b 4) - 1)) * 2) with
              | none =>
                rw [hread] at h2
                simp at h2
              | some _ =>
                have hb := (readU16_isSome_iff b _).mp (by rw [hread]; rfl)
                omega
          simp only [parseJimFile, e1, e2, e3, e4, e5, e6, hmm,
            Option.bind_eq_bind, Option.some_bind, Option.none_bind]
          constructor
          · intro _
            right; right; right
            omega
          · intro _
            trivial
      · by_cases hm2 : valU32 b 4 + 2 ≤ b.length
        · have e5 : readU16 b (valU32 b 4) = some (valU16 b (valU32 b 4)) :=
            readU16_eq_val b _ (by omega)
          have e6 : readU16 b (valU32 b 4 + 2) = none := readU16_isNone b _ (by omega)
          simp only [parseJimFile, e1, e2, e3, e4, e5, e6,
            Option.bind_eq_bind, Option.some_bind, Option.none_bind]
          constructor
          · intro _
            right; right; left
            omega
          · intro _
            trivial
        · have e5 : readU16 b (valU32 b 4) = none := readU16_isNone b _ (by omega)
          simp only [parseJimFile, e1, e2, e3, e4, e5,
            Option.bind_eq_bind, Option.some_bind, Option.none_bind]
          constructor
          · intro _
            right; right; left
            omega
          · intro _
            trivial
    · have hpmm : ((List.range 4).mapM fun palIdx => (List.range 16).mapM fun colIdx =>
          (readU16 b (valU32 b 0 + palIdx * 32 + colIdx * 2)).map parseGenesisColor) =
          none := by
        cases hm : ((List.range 4).mapM fun palIdx => (List.range 16).mapM fun colIdx =>
            (readU16 b (valU32 b 0 + palIdx * 32 + colIdx * 2)).map parseGenesisColor) with
        | none => rfl
        | some v =>
          exfalso
          have hsome : ((List.range 4).mapM fun palIdx =>
              (List.range 16).mapM fun colIdx =>
                (readU16 b (valU32 b 0 + palIdx * 32 + colIdx * 2)).map
                  parseGenesisColor).isSome = true := by
            rw [hm]
            rfl
          have h1 := (mapM_isSome_iff _ _).mp hsome 3 (List.mem_range.mpr (by norm_num))
          have h2 := (mapM_isSome_iff _ _).mp h1 15 (List.mem_range.mpr (by norm_num))
          cases hread : readU16 b (valU32 b 0 + 3 * 32 + 15 * 2) with
          | none =>
            rw [hread] at h2
            simp at h2
          | some _ =>
            have hb := (readU16_isSome_iff b _).mp (by rw [hread]; rfl)
            omega
      simp only [parseJimFile, e1, e2, e3, hpmm,
        Option.bind_eq_bind, Option.some_bind, Option.none_bind]
      constructor
      · intro _
        right; left
        omega
      · intro _
        trivial
  · by_cases h4 : 4 ≤ b.length
    · by_cases h8 : 8 ≤ b.length
      · have e1 : readU32 b 0 = some (valU32 b 0) := readU32_eq_val b 0 (by omega)
        have e2 : readU32 b 4 = some (valU32 b 4) := readU32_eq_val b 4 (by omega)
        have e3 : readU16 b 8 = none := readU16_isNone b 8 (by omega)
        simp only [parseJimFile, e1, e2, e3,
          Option.bind_eq_bind, Option.some_bind, Option.none_bind]
        constructor
        · intro _
          left
          omega
        · intro _
          trivial
      · have e1 : readU32 b 0 = some (valU32 b 0) := readU32_eq_val b 0 (by omega)
        have e2 : readU32 b 4 = none := readU32_isNone b 4 (by omega)
        simp only [parseJimFile, e1, e2,
          Option.bind_eq_bind, Option.some_bind, Option.none_bind]
        constructor
        · intro _
          left
          omega
        · intro _
          trivial
    · have e1 : readU32 b 0 = none := readU32_isNone b 0 (by omega)
      simp only [parseJimFile, e1, Option.bind_eq_bind, Option.none_bind]
      constructor
      · intro _
        left
        omega
      · intro _
        trivial

set_option maxRecDepth 10000 in
/-- C2 counterexample: a 200-byte buffer whose stored tile count (6)
requires a tile table extending to byte 202 — i.e. a buffer truncated
inside the tile table — still parses successfully, contradicting the
claim that any such truncation is a hard parse failure. -/
theorem parse_truncated_tile_table_counterexample :
    ([0, 0, 0, 10, 0, 0, 0, 10, 0, 6] ++ List.replicate 190 0 : List Nat).length <
        10 + 32 * valU16 ([0, 0, 0, 10, 0, 0, 0, 10, 0, 6] ++ List.replicate 190 0) 8 ∧
    (parseJimFile ([0, 0, 0, 10, 0, 0, 0, 10, 0, 6] ++ List.replicate 190 0)).isSome =
      true := by
  constructor
  · decide
  · decide

/-- `areTilesEqual` (jimService.ts lines 355-362): pixel-wise equality
over the 64 positions. -/
def areTilesEqual (t1 t2 : TileData) : Bool :=
  (List.range 8).all fun y => (List.range 8).all fun x =>
    (t1.getD y []).getD x 0 == (t2.getD y []).getD x 0

/-- Horizontal flip (`getFlippedVariants.h`): reverse each row. -/
def hFlipTile (tile : TileData) : TileData := tile.map List.reverse

/-- Vertical flip (`getFlippedVariants.v`): reverse the row order. -/
def vFlipTile (tile : TileData) : TileData := tile.reverse

/-- 180° rotation (`getFlippedVariants.hv`): both flips composed. -/
def hvFlipTile (tile : TileData) : TileData := tile.reverse.map List.reverse

/-- `getFlippedVariants` (jimService.ts lines 365-370). -/
def getFlippedVariants (tile : TileData) : TileData × TileData × TileData :=
  (hFlipTile tile, vFlipTile tile, hvFlipTile tile)

/-- One iteration of the `findExistingTile` search (jimService.ts lines
515-526): try exact, then h, then v, then hv flip of the arena entry. -/
def matchTile (existing candidate : TileData) : Option (Bool × Bool) :=
  if areTilesEqual existing candidate then some (false, false)
  else
    let fv := getFlippedVariants existing
    if areTilesEqual fv.1 candidate then some (true, false)
    else if areTilesEqual fv.2.1 candidate then some (false, true)
    else if areTilesEqual fv.2.2 candidate then some (true, true)
    else none

/-- `findExistingTile` (jimService.ts lines 515-526, identical local
helper at lines 390-403): linear scan from slot 0, returning the found
slot and which flip matched. -/
def findExistingTile : List TileData → TileData → Option (Nat × Bool × Bool)
  | [], _ => none
  | existing :: rest, candidate =>
    match matchTile existing candidate with
    | some fl => some (0, fl.1, fl.2)
    | none => (findExistingTile rest candidate).map fun r => (r.1 + 1, r.2.1, r.2.2)

/-- Pixel fetch of `convertAsepriteToJim` pass 1 (jimService.ts lines
543-546): out-of-extent pixels read as index 0. -/
def asePixel (ase : AsepriteData) (imgX imgY : Nat) : Nat :=
  if imgX < ase.width ∧ imgY < ase.height then
    ase.pixels.getD (imgY * ase.width + imgX) 0
  else 0

/-- The raw 8×8 block of global indices (`tileIndices` of pass 1). -/
def rawBlock (ase : AsepriteData) (mapX mapY : Nat) : TileData :=
  (List.range 8).map fun y => (List.range 8).map fun x =>
    asePixel ase (mapX * 8 + x) (mapY * 8 + y)

/-- `paletteCounts[p]` after pass 1: the number of non-zero pixels of the
block whose 16-wide bank is `p` (jimService.ts lines 550-556). -/
def paletteCount (t : TileData) (p : Nat) : Nat :=
  (t.flatten.filter fun idx => idx != 0 && idx / 16 == p).length

/-- The winner-palette scan (jimService.ts lines 561-569): first strict
maximum over banks 0-3, `maxCount` starting at -1. -/
def bestPaletteOf (t : TileData) : Nat :=
  ((List.range 4).foldl (fun acc p =>
    if (paletteCount t p : Int) > acc.2 then (p, (paletteCount t p : Int)) else acc)
    (0, (-1 : Int))).1

/-- Pass 2 of `convertAsepriteToJim` (jimService.ts lines 571-593):
non-zero pixels in the chosen bank are remapped to their 0-15 offset,
everything else is forced to 0. -/
def normalizeTile (t : TileData) (bestPalette : Nat) : TileData :=
  t.map fun rowIdx => rowIdx.map fun globalIdx =>
    if globalIdx ≠ 0 ∧ globalIdx / 16 = bestPalette then globalIdx % 16 else 0

/-- The normalized tile a block contributes. -/
def normalizedBlock (ase : AsepriteData) (mapX mapY : Nat) : TileData :=
  normalizeTile (rawBlock ase mapX mapY) (bestPaletteOf (rawBlock ase mapX mapY))

/-- The dedup-or-append step (jimService.ts lines 595-620): when
deduplication is enabled search the arena, otherwise (or on a miss)
append the candidate as a new tile. -/
def processBlock (forceUnique : Bool) (tiles : List TileData) (candidate : TileData)
    (bestPalette : Nat) : List TileData × MapCell :=
  match (if forceUnique then none else findExistingTile tiles candidate) with
  | some r => (tiles, ⟨r.1, bestPalette, r.2.1, r.2.2, false⟩)
  | none => (tiles ++ [candidate], ⟨tiles.length, bestPalette, false, false, false⟩)

/-- The per-block body of the inner (mapX) loop of `convertAsepriteToJim`. -/
def convStep (forceUnique : Bool) (ase : AsepriteData) (mapY : Nat)
    (st : List TileData × List MapCell) (mapX : Nat) : List TileData × List MapCell :=
  let r := processBlock forceUnique st.1 (normalizedBlock ase mapX mapY)
    (bestPaletteOf (rawBlock ase mapX mapY))
  (r.1, st.2 ++ [r.2])

/-- The inner (mapX) loop of `convertAsepriteToJim`. -/
def convertRow (forceUnique : Bool) (ase : AsepriteData) (mapWidth mapY : Nat)
    (tiles : List TileData) : List TileData × List MapCell :=
  (List.range mapWidth).foldl (convStep forceUnique ase mapY) (tiles, [])

/-- The per-row body of the outer (mapY) loop of `convertAsepriteToJim`. -/
def convOuterStep (forceUnique : Bool) (ase : AsepriteData) (mapWidth : Nat)
    (st : List TileData × List (List MapCell)) (mapY : Nat) :
    List TileData × List (List MapCell) :=
  let r := convertRow forceUnique ase mapWidth mapY st.1
  (r.1, st.2 ++ [r.2])

/-- Palette conversion of `convertAsepriteToJim` (jimService.ts lines
489-503): first 64 source entries in 4 banks of 16, snapped through
encode→decode; missing entries default to black. -/
def asePalettes (ase : AsepriteData) : List Palette :=
  (List.range 4).map fun pIdx => (List.range 16).map fun cIdx =>
    parseGenesisColor (rgbToGenesisColor (ase.palette.getD (pIdx * 16 + cIdx) ⟨0, 0, 0⟩))

/-- `convertAsepriteToJim` (jimService.ts lines 488-632). -/
def convertAsepriteToJim (ase : AsepriteData) (forceUnique : Bool) : JimData :=
  let mapWidth := (ase.width + 7) / 8
  let mapHeight := (ase.height + 7) / 8
  let st := (List.range mapHeight).foldl (convOuterStep forceUnique ase mapWidth)
    (([], []) : List TileData × List (List MapCell))
  { palettes := asePalettes ase, tiles := st.1, mapWidth := mapWidth,
    mapHeight := mapHeight, mapData := st.2 }

/-- The 8×8 block of raw RGB pixels read by `updateJimFromImage`
(jimService.ts lines 410-422). -/
def blockPixelsOf (img : ImageDataModel) (mapX mapY : Nat) : List (List RgbColor) :=
  (List.range 8).map fun y => (List.range 8).map fun x =>
    let idx := ((mapY * 8 + y) * img.width + (mapX * 8 + x)) * 4
    ⟨img.data.getD idx 0, img.data.getD (idx + 1) 0, img.data.getD (idx + 2) 0⟩

/-- Accumulation of per-pixel distances; `none` models the JavaScript
`Infinity` (an empty palette gives an infinite distance). -/
def addInf : Option Int → Option Int → Option Int
  | some a, some c => some (a + c)
  | _, _ => none

/-- The `currentError < minTotalError` comparison over possibly-infinite
error sums. -/
def ltOptInt : Option Int → Option Int → Bool
  | some a, some c => decide (a < c)
  | some _, none => true
  | none, _ => false

/-- Quantizing one block against one palette (jimService.ts lines
435-443): per-pixel nearest index and the summed distance. -/
def quantizeBlock (palette : Palette) (block : List (List RgbColor)) :
    TileData × Option Int :=
  let results := block.map fun row => row.map fun c => findNearestColorWithDist c palette
  (results.map fun row => row.map Prod.fst,
   (results.flatten.map Prod.snd).foldl addInf (some 0))

/-- The best-palette scan of `updateJimFromImage` (jimService.ts lines
426-450): the palette with strictly smaller total error wins,
`minTotalError` starting at Infinity. -/
def choosePalette (jim : JimData) (block : List (List RgbColor)) :
    Nat × Option Int × TileData :=
  (List.range 4).foldl (fun acc p =>
    let qr := quantizeBlock (jim.palettes.getD p []) block
    if ltOptInt qr.2 acc.2.1 then (p, qr.2, qr.1) else acc)
    (0, none, ([] : TileData))

/-- The per-block body of the inner (mapX) loop of `updateJimFromImage`
(jimService.ts lines 407-477). -/
def updStep (jim : JimData) (img : ImageDataModel) (mapY : Nat)
    (st : List TileData × List MapCell) (mapX : Nat) : List TileData × List MapCell :=
  let sel := choosePalette jim (blockPixelsOf img mapX mapY)
  match findExistingTile st.1 sel.2.2 with
  | some r => (st.1, st.2 ++ [⟨r.1, sel.1, r.2.1, r.2.2, false⟩])
  | none => (st.1 ++ [sel.2.2], st.2 ++ [⟨st.1.length, sel.1, false, false, false⟩])

/-- The per-row body of the outer (mapY) loop of `updateJimFromImage`. -/
def updOuterStep (jim : JimData) (img : ImageDataModel)
    (st : List TileData × List (List MapCell)) (mapY : Nat) :
    List TileData × List (List MapCell) :=
  let r := (List.range jim.mapWidth).foldl (updStep jim img mapY) (st.1, [])
  (r.1, st.2 ++ [r.2])

/-- `updateJimFromImage` (jimService.ts lines 372-486): palettes are
kept, tiles and map are regenerated from the raster. -/
def updateJimFromImage (originalJim : JimData) (imageData : ImageDataModel) : JimData :=
  let st := (List.range originalJim.mapHeight).foldl
    (updOuterStep originalJim imageData)
    (([], []) : List TileData × List (List MapCell))
  { originalJim with tiles := st.1, mapData := st.2 }

set_option maxRecDepth 10000 in
/-- C1 counterexample: converting the 16×16 sprite document whose only
non-zero pixel is index 5 at (0,0) yields TWO arena tiles; the three
blank blocks reference tileIndex 1 (the blank tile, deduplicated among
themselves), not tileIndex 0 as the claim states — the blank tile does
not match tile 0 (which carries the 5) under any flip. -/
theorem convert_single_pixel_counterexample :
    (convertAsepriteToJim ⟨16, 16, [], 5 :: List.replicate 255 0⟩ false).tiles.length = 2 ∧
    (((convertAsepriteToJim ⟨16, 16, [], 5 :: List.replicate 255 0⟩
        false).mapData.getD 0 []).getD 1 default).tileIndex = 1 ∧
    (((convertAsepriteToJim ⟨16, 16, [], 5 :: List.replicate 255 0⟩
        false).mapData.getD 1 []).getD 0 default).tileIndex = 1 ∧
    (((convertAsepriteToJim ⟨16, 16, [], 5 :: List.replicate 255 0⟩
        false).mapData.getD 1 []).getD 1 default).tileIndex = 1 := by
  refine ⟨by decide, by decide, by decide, by decide⟩

set_option maxRecDepth 10000 in
/-- C1 (amended): the 16×16 single-pixel document converts to
mapWidth = mapHeight = 2, with exactly one non-empty tile (index 5 at its
(0,0), at tileIndex 0, paletteIndex 0 on its cell) and one blank tile at
tileIndex 1 shared by the three blank blocks. -/
theorem convert_single_pixel_scenario :
    convertAsepriteToJim ⟨16, 16, [], 5 :: List.replicate 255 0⟩ false =
      { palettes := List.replicate 4 (List.replicate 16 ⟨0, 0, 0⟩)
        tiles := [(5 :: List.replicate 7 0) :: List.replicate 7 (List.replicate 8 0),
                  List.replicate 8 (List.replicate 8 0)]
        mapWidth := 2
        mapHeight := 2
        mapData := [[⟨0, 0, false, false, false⟩, ⟨1, 0, false, false, false⟩],
                    [⟨1, 0, false, false, false⟩, ⟨1, 0, false, false, false⟩]] } := by
  decide

lemma areTilesEqual_refl (t : TileData) : areTilesEqual t t = true := by
  simp [areTilesEqual]

lemma findExistingTile_lt : ∀ (arena : List TileData) (cand : TileData)
    (r : Nat × Bool × Bool), findExistingTile arena cand = some r → r.1 < arena.length := by
  intro arena
  induction arena with
  | nil =>
    intro cand r h
    simp [findExistingTile] at h
  | cons t rest ih =>
    intro cand r h
    rw [findExistingTile] at h
    cases hm : matchTile t cand with
    | some fl =>
      rw [hm] at h
      simp only [Option.some.injEq] at h
      rw [← h]
      simp
    | none =>
      rw [hm] at h
      simp only [Option.map_eq_some'] at h
      obtain ⟨r2, hr2, hre⟩ := h
      have := ih cand r2 hr2
      rw [← hre]
      simp
      omega

lemma bestPaletteOf_lt (t : TileData) : bestPaletteOf t < 4 := by
  rw [bestPaletteOf, show List.range 4 = [0, 1, 2, 3] from rfl]
  simp only [List.foldl_cons, List.foldl_nil]
  split_ifs <;> norm_num

lemma choosePalette_lt (jim : JimData) (block : List (List RgbColor)) :
    (choosePalette jim block).1 < 4 := by
  rw [choosePalette, show List.range 4 = [0, 1, 2, 3] from rfl]
  simp only [List.foldl_cons, List.foldl_nil]
  split_ifs <;> norm_num

lemma processBlock_spec (fu : Bool) (tiles : List TileData) (cand : TileData) (bp : Nat) :
    tiles.length ≤ (processBlock fu tiles cand bp).1.length ∧
    (processBlock fu tiles cand bp).2.tileIndex < (processBlock fu tiles cand bp).1.length ∧
    (processBlock fu tiles cand bp).2.paletteIndex = bp ∧
    (processBlock fu tiles cand bp).2.priority = false := by
  rw [processBlock]
  cases hf : (if fu then none else findExistingTile tiles cand) with
  | none => simp
  | some r =>
    have hr : findExistingTile tiles cand = some r := by
      cases fu with
      | true => simp at hf
      | false => simpa using hf
    have hlt := findExistingTile_lt tiles cand r hr
    simp [hlt]

lemma convStep_spec (fu : Bool) (ase : AsepriteData) (mapY : Nat)
    (st : List TileData × List MapCell) (mapX : Nat) :
    st.1.length ≤ (convStep fu ase mapY st mapX).1.length ∧
    ∃ cell, (convStep fu ase mapY st mapX).2 = st.2 ++ [cell] ∧
      cell.tileIndex < (convStep fu ase mapY st mapX).1.length ∧
      cell.paletteIndex < 4 ∧ cell.priority = false := by
  obtain ⟨h1, h2, h3, h4⟩ := processBlock_spec fu st.1 (normalizedBlock ase mapX mapY)
    (bestPaletteOf (rawBlock ase mapX mapY))
  refine ⟨h1, (processBlock fu st.1 (normalizedBlock ase mapX mapY)
    (bestPaletteOf (rawBlock ase mapX mapY))).2, rfl, h2, ?_, h4⟩
  rw [h3]
  exact bestPaletteOf_lt _

lemma updStep_spec (jim : JimData) (img : ImageDataModel) (mapY : Nat)
    (st : List TileData × List MapCell) (mapX : Nat) :
    st.1.length ≤ (updStep jim img mapY st mapX).1.length ∧
    ∃ cell, (updStep jim img mapY st mapX).2 = st.2 ++ [cell] ∧
      cell.tileIndex < (updStep jim img mapY st mapX).1.length ∧
      cell.paletteIndex < 4 ∧ cell.priority = false := by
  rw [updStep]
  have hcp := choosePalette_lt jim (blockPixelsOf img mapX mapY)
  cases hf : findExistingTile st.1
      (choosePalette jim (blockPixelsOf img mapX mapY)).2.2 with
  | none =>
    refine ⟨by simp, _, rfl, ?_, hcp, rfl⟩
    simp
  | some r =>
    have hlt := findExistingTile_lt _ _ r hf
    exact ⟨le_rfl, _, rfl, hlt, hcp, rfl⟩

lemma dedupFold_spec (step : List TileData × List MapCell → Nat →
      List TileData × List MapCell)
    (hstep : ∀ st x, st.1.length ≤ (step st x).1.length ∧
      ∃ cell, (step st x).2 = st.2 ++ [cell] ∧
        cell.tileIndex < (step st x).1.length ∧ cell.paletteIndex < 4 ∧
        cell.priority = false) :
    ∀ (xs : List Nat) (st : List TileData × List MapCell),
      st.1.length ≤ (xs.foldl step st).1.length ∧
      (xs.foldl step st).2.length = st.2.length + xs.length ∧
      ((∀ c ∈ st.2, c.tileIndex < st.1.length ∧ c.paletteIndex < 4 ∧
          c.priority = false) →
        ∀ c ∈ (xs.foldl step st).2,
          c.tileIndex < (xs.foldl step st).1.length ∧ c.paletteIndex < 4 ∧
          c.priority = false) := by
  intro xs
  induction xs with
  | nil =>
    intro st
    exact ⟨le_rfl, by simp, fun h => h⟩
  | cons x rest ih =>
    intro st
    rw [List.foldl_cons]
    obtain ⟨hmono, cell, hcell, hct, hcp, hcprio⟩ := hstep st x
    obtain ⟨ihmono, ihlen, ihinv⟩ := ih (step st x)
    refine ⟨le_trans hmono ihmono, ?_, ?_⟩
    · rw [ihlen, hcell]
      simp
      omega
    · intro hprev
      apply ihinv
      intro c hc
      rw [hcell] at hc
      rcases List.mem_append.mp hc with hc2 | hc2
      · obtain ⟨p1, p2, p3⟩ := hprev c hc2
        exact ⟨lt_of_lt_of_le p1 hmono, p2, p3⟩
      · have := List.mem_singleton.mp hc2
        subst this
        exact ⟨hct, hcp, hcprio⟩

lemma dedupOuterFold_spec (rowFn : List TileData → Nat →
      List TileData × List MapCell) (w : Nat)
    (hrow : ∀ tiles y, tiles.length ≤ (rowFn tiles y).1.length ∧
      (rowFn tiles y).2.length = w ∧
      ∀ c ∈ (rowFn tiles y).2, c.tileIndex < (rowFn tiles y).1.length ∧
        c.paletteIndex < 4 ∧ c.priority = false) :
    ∀ (ys : List Nat) (st : List TileData × List (List MapCell)),
      st.1.length ≤ (ys.foldl (fun st y =>
        ((rowFn st.1 y).1, st.2 ++ [(rowFn st.1 y).2])) st).1.length ∧
      (ys.foldl (fun st y =>
        ((rowFn st.1 y).1, st.2 ++ [(rowFn st.1 y).2])) st).2.length =
        st.2.length + ys.length ∧
      ((∀ row ∈ st.2, row.length = w) →
        ∀ row ∈ (ys.foldl (fun st y =>
          ((rowFn st.1 y).1, st.2 ++ [(rowFn st.1 y).2])) st).2, row.length = w) ∧
      ((∀ row ∈ st.2, ∀ c ∈ row, c.tileIndex < st.1.length ∧
          c.paletteIndex < 4 ∧ c.priority = false) →
        ∀ row ∈ (ys.foldl (fun st y =>
          ((rowFn st.1 y).1, st.2 ++ [(rowFn st.1 y).2])) st).2, ∀ c ∈ row,
          c.tileIndex < (ys.foldl (fun st y =>
            ((rowFn st.1 y).1, st.2 ++ [(rowFn st.1 y).2])) st).1.length ∧
          c.paletteIndex < 4 ∧ c.priority = false) := by
  intro ys
  induction ys with
  | nil =>
    intro st
    exact ⟨le_rfl, by simp, fun h => h, fun h => h⟩
  | cons y rest ih =>
    intro st
    rw [List.foldl_cons]
    obtain ⟨hmono, hlen, hcells⟩ := hrow st.1 y
    obtain ⟨ihmono, ihlen, ihrows, ihinv⟩ :=
      ih ((rowFn st.1 y).1, st.2 ++ [(rowFn st.1 y).2])
    refine ⟨le_trans hmono ihmono, ?_, ?_, ?_⟩
    · rw [ihlen]
      simp
      omega
    · intro hprev
      apply ihrows
      intro row hrmem
      rcases List.mem_append.mp hrmem with hr2 | hr2
      · exact hprev row hr2
      · have := List.mem_singleton.mp hr2
        subst this
        exact hlen
    · intro hprev
      apply ihinv
      intro row hrmem c hcmem
      rcases List.mem_append.mp hrmem with hr2 | hr2
      · obtain ⟨p1, p2, p3⟩ := hprev row hr2 c hcmem
        exact ⟨lt_of_lt_of_le p1 hmono, p2, p3⟩
      · have := List.mem_singleton.mp hr2
        subst this
        obtain ⟨p1, p2, p3⟩ := hcells c hcmem
        exact ⟨p1, p2, p3⟩

lemma convert_shape_invariants (ase : AsepriteData) (fu : Bool) :
    (convertAsepriteToJim ase fu).mapData.length = (ase.height + 7) / 8 ∧
    (∀ row ∈ (convertAsepriteToJim ase fu).mapData,
      row.length = (ase.width + 7) / 8) ∧
    ∀ row ∈ (convertAsepriteToJim ase fu).mapData, ∀ c ∈ row,
      c.tileIndex < (convertAsepriteToJim ase fu).tiles.length ∧
      c.paletteIndex < 4 ∧ c.priority = false := by
  have hrowspec : ∀ tiles y,
      tiles.length ≤ (convertRow fu ase ((ase.width + 7) / 8) y tiles).1.length ∧
      (convertRow fu ase ((ase.width + 7) / 8) y tiles).2.length =
        (ase.width + 7) / 8 ∧
      ∀ c ∈ (convertRow fu ase ((ase.width + 7) / 8) y tiles).2,
        c.tileIndex < (convertRow fu ase ((ase.width + 7) / 8) y tiles).1.length ∧
        c.paletteIndex < 4 ∧ c.priority = false := by
    intro tiles y
    obtain ⟨h1, h2, h3⟩ := dedupFold_spec (convStep fu ase y) (convStep_spec fu ase y)
      (List.range ((ase.width + 7) / 8)) (tiles, [])
    exact ⟨h1, by simpa using h2, h3 (by simp)⟩
  obtain ⟨-, hlen, hrows, hinv⟩ := dedupOuterFold_spec
    (fun tiles y => convertRow fu ase ((ase.width + 7) / 8) y tiles)
    ((ase.width + 7) / 8) hrowspec (List.range ((ase.height + 7) / 8)) ([], [])
  have hmap : (convertAsepriteToJim ase fu).mapData =
      ((List.range ((ase.height + 7) / 8)).foldl (fun st y =>
        ((convertRow fu ase ((ase.width + 7) / 8) y st.1).1,
         st.2 ++ [(convertRow fu ase ((ase.width + 7) / 8) y st.1).2]))
        ([], [])).2 := rfl
  have htiles : (convertAsepriteToJim ase fu).tiles =
      ((List.range ((ase.height + 7) / 8)).foldl (fun st y =>
        ((convertRow fu ase ((ase.width + 7) / 8) y st.1).1,
         st.2 ++ [(convertRow fu ase ((ase.width + 7) / 8) y st.1).2]))
        ([], [])).1 := rfl
  refine ⟨?_, ?_, ?_⟩
  · rw [hmap, hlen]
    simp
  · intro row hr
    exact hrows (by simp) row (hmap ▸ hr)
  · intro row hr c hc
    rw [htiles]
    exact hinv (by simp) row (hmap ▸ hr) c hc

lemma update_shape_invariants (jim : JimData) (img : ImageDataModel) :
    ∀ row ∈ (updateJimFromImage jim img).mapData, ∀ c ∈ row,
      c.tileIndex < (updateJimFromImage jim img).tiles.length ∧
      c.paletteIndex < 4 ∧ c.priority = false := by
  have hrowspec : ∀ tiles y,
      tiles.length ≤
        ((List.range jim.mapWidth).foldl (updStep jim img y) (tiles, [])).1.length ∧
      ((List.range jim.mapWidth).foldl (updStep jim img y) (tiles, [])).2.length =
        jim.mapWidth ∧
      ∀ c ∈ ((List.range jim.mapWidth).foldl (updStep jim img y) (tiles, [])).2,
        c.tileIndex <
          ((List.range jim.mapWidth).foldl (updStep jim img y) (tiles, [])).1.length ∧
        c.paletteIndex < 4 ∧ c.priority = false := by
    intro tiles y
    obtain ⟨h1, h2, h3⟩ := dedupFold_spec (updStep jim img y) (updStep_spec jim img y)
      (List.range jim.mapWidth) (tiles, [])
    exact ⟨h1, by simpa using h2, h3 (by simp)⟩
  obtain ⟨-, -, -, hinv⟩ := dedupOuterFold_spec
    (fun tiles y => (List.range jim.mapWidth).foldl (updStep jim img y) (tiles, []))
    jim.mapWidth hrowspec (List.range jim.mapHeight) ([], [])
  have hmap : (updateJimFromImage jim img).mapData =
      ((List.range jim.mapHeight).foldl (fun st y =>
        (((List.range jim.mapWidth).foldl (updStep jim img y) (st.1, [])).1,
         st.2 ++ [((List.range jim.mapWidth).foldl (updStep jim img y) (st.1, [])).2]))
        ([], [])).2 := rfl
  have htiles : (updateJimFromImage jim img).tiles =
      ((List.range jim.mapHeight).foldl (fun st y =>
        (((List.range jim.mapWidth).foldl (updStep jim img y) (st.1, [])).1,
         st.2 ++ [((List.range jim.mapWidth).foldl (updStep jim img y) (st.1, [])).2]))
        ([], [])).1 := rfl
  intro row hr c hc
  rw [htiles]
  exact hinv (by simp) row (hmap ▸ hr) c hc

/-- C10: every map cell emitted by the sprite-to-native conversion (with
or without deduplication) and by the raster re-import references a tile
index inside the produced arena, a palette index in 0-3, and
priority = false. -/
theorem conversion_cell_invariants :
    (∀ (ase : AsepriteData) (fu : Bool) (row : List MapCell) (cell : MapCell),
      row ∈ (convertAsepriteToJim ase fu).mapData → cell ∈ row →
      cell.tileIndex < (convertAsepriteToJim ase fu).tiles.length ∧
      cell.paletteIndex < 4 ∧ cell.priority = false) ∧
    (∀ (jim : JimData) (img : ImageDataModel) (row : List MapCell) (cell : MapCell),
      jim.palettes.length = 4 →
      row ∈ (updateJimFromImage jim img).mapData → cell ∈ row →
      cell.tileIndex < (updateJimFromImage jim img).tiles.length ∧
      cell.paletteIndex < 4 ∧ cell.priority = false) := by
  constructor
  · intro ase fu row cell hrow hcell
    exact (convert_shape_invariants ase fu).2.2 row hrow cell hcell
  · intro jim img row cell _ hrow hcell
    exact update_shape_invariants jim img row hrow cell hcell

/-- Witness for C10 at a one-block conversion and a one-block re-import. -/
theorem conversion_cell_invariants_witness :
    ((⟨0, 0, false, false, false⟩ : MapCell).tileIndex <
        (convertAsepriteToJim ⟨8, 8, [], []⟩ false).tiles.length ∧
      (⟨0, 0, false, false, false⟩ : MapCell).paletteIndex < 4 ∧
      (⟨0, 0, false, false, false⟩ : MapCell).priority = false) ∧
    ((⟨0, 0, false, false, false⟩ : MapCell).tileIndex <
        (updateJimFromImage
          ⟨List.replicate 4 [], [], 1, 1, []⟩
          ⟨8, 8, List.replicate 256 0⟩).tiles.length ∧
      (⟨0, 0, false, false, false⟩ : MapCell).paletteIndex < 4 ∧
      (⟨0, 0, false, false, false⟩ : MapCell).priority = false) :=
  ⟨conversion_cell_invariants.1 ⟨8, 8, [], []⟩ false
      [⟨0, 0, false, false, false⟩] ⟨0, 0, false, false, false⟩
      (by decide) (by decide),
   conversion_cell_invariants.2 ⟨List.replicate 4 [], [], 1, 1, []⟩
      ⟨8, 8, List.replicate 256 0⟩
      [⟨0, 0, false, false, false⟩] ⟨0, 0, false, false, false⟩
      (by decide) (by decide) (by decide)⟩

lemma getD_map_of_lt {A B : Type _} (f : A → B) (l : List A) (n : Nat)
    (hn : n < l.length) (d : A) (d2 : B) :
    (l.map f).getD n d2 = f (l.getD n d) := by
  rw [List.getD_eq_getElem _ _ (by simpa using hn), List.getElem_map,
    List.getD_eq_getElem _ _ hn]

/-- C7: during sprite-to-native conversion, a pixel whose non-zero global
index lies outside the block's chosen 16-wide bank is silently forced to
index 0, a pixel in the chosen bank is remapped to its 0-15 offset, and
the conversion still produces a complete document (a full map of the
computed dimensions) with no error. -/
theorem bank_mismatch_silent_zero (ase : AsepriteData) (fu : Bool)
    (mapX mapY y x : Nat) (hy : y < 8) (hx : x < 8) :
    ((normalizedBlock ase mapX mapY).getD y []).getD x 0 =
      (if ((rawBlock ase mapX mapY).getD y []).getD x 0 ≠ 0 ∧
          ((rawBlock ase mapX mapY).getD y []).getD x 0 / 16 =
            bestPaletteOf (rawBlock ase mapX mapY)
        then ((rawBlock ase mapX mapY).getD y []).getD x 0 % 16 else 0) ∧
    (convertAsepriteToJim ase fu).mapData.length = (ase.height + 7) / 8 ∧
    ∀ row ∈ (convertAsepriteToJim ase fu).mapData,
      row.length = (ase.width + 7) / 8 := by
  refine ⟨?_, (convert_shape_invariants ase fu).1, (convert_shape_invariants ase fu).2.1⟩
  have hlen : (rawBlock ase mapX mapY).length = 8 := by simp [rawBlock]
  have hylen : y < (rawBlock ase mapX mapY).length := by omega
  have hxlen : x < ((rawBlock ase mapX mapY).getD y []).length := by
    rw [List.getD_eq_getElem _ _ hylen]
    simp [rawBlock]
    omega
  rw [normalizedBlock, normalizeTile, getD_map_of_lt _ _ _ hylen [] [],
    getD_map_of_lt _ _ _ hxlen 0 0]

/-- Witness for C7 at a concrete block: global index 21 (bank 1) with a
bank-0 majority block is forced to 0. -/
theorem bank_mismatch_silent_zero_witness :
    ((normalizedBlock ⟨8, 8, [], [1, 21]⟩ 0 0).getD 0 []).getD 1 0 =
      (if ((rawBlock ⟨8, 8, [], [1, 21]⟩ 0 0).getD 0 []).getD 1 0 ≠ 0 ∧
          ((rawBlock ⟨8, 8, [], [1, 21]⟩ 0 0).getD 0 []).getD 1 0 / 16 =
            bestPaletteOf (rawBlock ⟨8, 8, [], [1, 21]⟩ 0 0)
        then ((rawBlock ⟨8, 8, [], [1, 21]⟩ 0 0).getD 0 []).getD 1 0 % 16 else 0) ∧
    (convertAsepriteToJim ⟨8, 8, [], [1, 21]⟩ false).mapData.length = (8 + 7) / 8 ∧
    ∀ row ∈ (convertAsepriteToJim ⟨8, 8, [], [1, 21]⟩ false).mapData,
      row.length = (8 + 7) / 8 :=
  bank_mismatch_silent_zero ⟨8, 8, [], [1, 21]⟩ false 0 0 0 1
    (by norm_num) (by norm_num)

/-- C5: an image whose first 8×8 block normalizes to tile T and whose
second block normalizes to T's 180°-rotated twin (with T genuinely
distinct from the twin under the earlier-checked orientations) converts
to exactly one arena entry, both cells referencing tileIndex 0, the
rotated one with hFlip = vFlip = true. -/
theorem dedup_rotated_twin (ase : AsepriteData) (T : TileData)
    (hw : ase.width = 16) (hh : ase.height = 8)
    (hb0 : normalizedBlock ase 0 0 = T)
    (hb1 : normalizedBlock ase 1 0 = hvFlipTile T)
    (hne1 : areTilesEqual T (hvFlipTile T) = false)
    (hne2 : areTilesEqual (hFlipTile T) (hvFlipTile T) = false)
    (hne3 : areTilesEqual (vFlipTile T) (hvFlipTile T) = false) :
    (convertAsepriteToJim ase false).tiles = [T] ∧
    ((convertAsepriteToJim ase false).mapData.getD 0 []).getD 0 default =
      ⟨0, bestPaletteOf (rawBlock ase 0 0), false, false, false⟩ ∧
    ((convertAsepriteToJim ase false).mapData.getD 0 []).getD 1 default =
      ⟨0, bestPaletteOf (rawBlock ase 1 0), true, true, false⟩ := by
  have hmw : (ase.width + 7) / 8 = 2 := by rw [hw]
  have hmh : (ase.height + 7) / 8 = 1 := by rw [hh]
  have hmatch : matchTile T (hvFlipTile T) = some (true, true) := by
    rw [matchTile]
    simp [getFlippedVariants, hne1, hne2, hne3, areTilesEqual_refl]
  have hfind : findExistingTile [T] (hvFlipTile T) = some (0, true, true) := by
    rw [findExistingTile, hmatch]
  have hst : (List.range 1).foldl (convOuterStep false ase 2) ([], []) =
      ([T], [[⟨0, bestPaletteOf (rawBlock ase 0 0), false, false, false⟩,
              ⟨0, bestPaletteOf (rawBlock ase 1 0), true, true, false⟩]]) := by
    rw [show List.range 1 = [0] from rfl, List.foldl_cons, List.foldl_nil]
    simp only [convOuterStep, convertRow, show List.range 2 = [0, 1] from rfl,
      List.foldl_cons, List.foldl_nil, convStep, processBlock, hb0, hb1,
      Bool.false_eq_true, if_false]
    rw [show findExistingTile [] T = none from rfl]
    simp only [List.nil_append]
    rw [hfind]
    rfl
  simp [convertAsepriteToJim, hmw, hmh, hst]

/-- Witness for C5: a 16×8 image whose left block has index 1 at (0,0)
and whose right block is its 180° twin (index 1 at (7,7)). -/
theorem dedup_rotated_twin_witness :
    (convertAsepriteToJim ⟨16, 8, [], 1 :: (List.replicate 126 0 ++ [1])⟩ false).tiles =
      [(1 :: List.replicate 7 0) :: List.replicate 7 (List.replicate 8 0)] ∧
    ((convertAsepriteToJim ⟨16, 8, [], 1 :: (List.replicate 126 0 ++ [1])⟩
        false).mapData.getD 0 []).getD 0 default =
      ⟨0, bestPaletteOf (rawBlock ⟨16, 8, [], 1 :: (List.replicate 126 0 ++ [1])⟩ 0 0),
        false, false, false⟩ ∧
    ((convertAsepriteToJim ⟨16, 8, [], 1 :: (List.replicate 126 0 ++ [1])⟩
        false).mapData.getD 0 []).getD 1 default =
      ⟨0, bestPaletteOf (rawBlock ⟨16, 8, [], 1 :: (List.replicate 126 0 ++ [1])⟩ 1 0),
        true, true, false⟩ :=
  dedup_rotated_twin ⟨16, 8, [], 1 :: (List.replicate 126 0 ++ [1])⟩
    ((1 :: List.replicate 7 0) :: List.replicate 7 (List.replicate 8 0))
    rfl rfl (by decide) (by decide) (by decide) (by decide) (by decide)

/-- Little-endian `DataView.getUint16` for the sprite-document parser. -/
def readU16LE (b : List Nat) (off : Nat) : Except String Nat :=
  if off + 2 ≤ b.length then .ok (b.getD off 0 + 256 * b.getD (off + 1) 0)
  else .error "RangeError"

/-- Little-endian `DataView.getUint32`. -/
def readU32LE (b : List Nat) (off : Nat) : Except String Nat :=
  if off + 4 ≤ b.length then
    .ok (b.getD off 0 + 256 * b.getD (off + 1) 0 + 65536 * b.getD (off + 2) 0 +
      16777216 * b.getD (off + 3) 0)
  else .error "RangeError"

/-- `DataView.getUint8`. -/
def readU8E (b : List Nat) (off : Nat) : Except String Nat :=
  if off < b.length then .ok (b.getD off 0) else .error "RangeError"

/-- Little-endian `DataView.getInt16`. -/
def readI16LE (b : List Nat) (off : Nat) : Except String Int :=
  match readU16LE b off with
  | .ok u => .ok (if u < 32768 then (u : Int) else (u : Int) - 65536)
  | .error e => .error e

/-- The value of a successful little-endian 16-bit read. -/
def valU16LE (b : List Nat) (off : Nat) : Nat :=
  b.getD off 0 + 256 * b.getD (off + 1) 0

/-- The value of a successful little-endian 32-bit read. -/
def valU32LE (b : List Nat) (off : Nat) : Nat :=
  b.getD off 0 + 256 * b.getD (off + 1) 0 + 65536 * b.getD (off + 2) 0 +
    16777216 * b.getD (off + 3) 0

/-- `ArrayBuffer.slice(start, stop)`: clamping, empty when reversed. -/
def sliceList (b : List Nat) (start stop : Nat) : List Nat :=
  (b.take stop).drop start

/-- The palette-chunk entry loop of `parseAseprite` (asepriteParser.ts
lines 63-86): entries past the chunk end break out, slots ≥ 256 are
discarded, a name field is skipped when flagged. -/
def paletteEntries (b : List Nat) (chunkEnd : Nat) :
    Nat → Nat → Nat → List RgbColor → Except String (List RgbColor)
  | 0, _, _, pal => .ok pal
  | n + 1, curIdx, pOff, pal =>
    if chunkEnd < pOff + 6 then .ok pal
    else do
      let flags ← readU16LE b pOff
      let r ← readU8E b (pOff + 2)
      let g ← readU8E b (pOff + 3)
      let bl ← readU8E b (pOff + 4)
      let pal2 := if curIdx < 256 then pal.set curIdx ⟨r, g, bl⟩ else pal
      if flags % 2 = 1 then
        if chunkEnd < pOff + 6 + 2 then .ok pal2
        else do
          let nameLen ← readU16LE b (pOff + 6)
          paletteEntries b chunkEnd n (curIdx + 1) (pOff + 6 + 2 + nameLen) pal2
      else
        paletteEntries b chunkEnd n (curIdx + 1) (pOff + 6) pal2

/-- The cel blit of `parseAseprite` (asepriteParser.ts lines 117-129):
per-pixel clipping to the canvas. -/
def blitCel (width height : Nat) (xPos yPos : Int) (celW celH : Nat)
    (celPixels : List Nat) (pixels : List Nat) : List Nat :=
  (List.range celH).foldl (fun px (cy : Nat) =>
    (List.range celW).foldl (fun px2 (cx : Nat) =>
      let destX : Int := xPos + (cx : Int)
      let destY : Int := yPos + (cy : Int)
      if 0 ≤ destX ∧ destX < (width : Int) ∧ 0 ≤ destY ∧ destY < (height : Int) then
        px2.set (destY * (width : Int) + destX).toNat
          (celPixels.getD (cy * celW + cx) 0)
      else px2) px) pixels

/-- The chunk walk of `parseAseprite` (asepriteParser.ts lines 58-135);
`inflate` abstracts the external `DecompressionStream` deflate codec, its
failure (`none`) skipping the cel as in the source's try/catch. -/
def chunkLoop (inflate : List Nat → Option (List Nat)) (b : List Nat)
    (width height : Nat) :
    Nat → Nat → List RgbColor → List Nat → Except String AsepriteData
  | 0, _, palette, pixels => .ok ⟨width, height, palette, pixels⟩
  | n + 1, offset, palette, pixels => do
    let chunkSize ← readU32LE b offset
    let chunkType ← readU16LE b (offset + 4)
    if chunkType = 8217 then do
      let numEntries ← readU32LE b (offset + 6)
      let firstIndex ← readU32LE b (offset + 10)
      let palette2 ← paletteEntries b (offset + chunkSize) numEntries firstIndex
        (offset + 26) palette
      chunkLoop inflate b width height n (offset + chunkSize) palette2 pixels
    else if chunkType = 8197 then do
      let xPos ← readI16LE b (offset + 8)
      let yPos ← readI16LE b (offset + 10)
      let celType ← readU16LE b (offset + 13)
      if celType = 2 then do
        let celW ← readU16LE b (offset + 22)
        let celH ← readU16LE b (offset + 24)
        match inflate (sliceList b (offset + 26) (offset + chunkSize)) with
        | none =>
          chunkLoop inflate b width height n (offset + chunkSize) palette pixels
        | some celPixels =>
          chunkLoop inflate b width height n (offset + chunkSize) palette
            (blitCel width height xPos yPos celW celH celPixels pixels)
      else
        chunkLoop inflate b width height n (offset + chunkSize) palette pixels
    else
      chunkLoop inflate b width height n (offset + chunkSize) palette pixels

/-- `parseAseprite` (asepriteParser.ts lines 10-139): magic 0xA5E0 at
offset 4, 8-bit depth only, frame header at 128 with magic 0xF1FA at 132,
then the chunk walk from offset 144. -/
def parseAseprite (inflate : List Nat → Option (List Nat)) (b : List Nat) :
    Except String AsepriteData := do
  let magic ← readU16LE b 4
  if magic ≠ 42464 then
    Except.error "Invalid Aseprite file header"
  else
    let width ← readU16LE b 8
    let height ← readU16LE b 10
    let bpp ← readU16LE b 12
    if bpp ≠ 8 then
      Except.error "Only 8bpp (Indexed) Aseprite files are supported"
    else
      if b.length < 144 then
        Except.error "File too short for frame header"
      else
        let frameMagic ← readU16LE b 132
        if frameMagic ≠ 61946 then
          Except.error "Invalid Frame header"
        else
          let oldChunks ← readU16LE b 134
          let numChunks32 ← readU32LE b 140
          chunkLoop inflate b width height
            (if numChunks32 = 0 then oldChunks else numChunks32) 144
            (List.replicate 256 ⟨0, 0, 0⟩) (List.replicate (width * height) 0)

lemma exceptOk_bind {A B : Type _} (a : A) (f : A → Except String B) :
    (Except.ok a >>= f) = f a := rfl

lemma exceptError_bind {A B : Type _} (e : String) (f : A → Except String B) :
    ((Except.error e : Except String A) >>= f) = Except.error e := rfl

lemma readU16LE_eq_val (b : List Nat) (off : Nat) (h : off + 2 ≤ b.length) :
    readU16LE b off = .ok (valU16LE b off) := by
  rw [readU16LE, valU16LE, if_pos h]

lemma readU32LE_eq_val (b : List Nat) (off : Nat) (h : off + 4 ≤ b.length) :
    readU32LE b off = .ok (valU32LE b off) := by
  rw [readU32LE, valU32LE, if_pos h]

lemma readU16LE_err (b : List Nat) (off : Nat) (h : ¬ off + 2 ≤ b.length) :
    readU16LE b off = .error "RangeError" := by
  rw [readU16LE, if_neg h]

/-- C9 (amended): the sprite-document parse fails before the chunk walk
exactly when the buffer is shorter than 144 bytes (the frame header
extent, checked before the frame magic), the file magic is not 0xA5E0,
the depth is not 8, or the frame magic is not 0xF1FA; a buffer passing
all four reaches the chunk walk. -/
theorem aseprite_header_checks (inflate : List Nat → Option (List Nat)) (b : List Nat) :
    (144 ≤ b.length → valU16LE b 4 = 42464 → valU16LE b 12 = 8 →
      valU16LE b 132 = 61946 →
      parseAseprite inflate b =
        chunkLoop inflate b (valU16LE b 8) (valU16LE b 10)
          (if valU32LE b 140 = 0 then valU16LE b 134 else valU32LE b 140) 144
          (List.replicate 256 ⟨0, 0, 0⟩)
          (List.replicate (valU16LE b 8 * valU16LE b 10) 0)) ∧
    (¬ (144 ≤ b.length ∧ valU16LE b 4 = 42464 ∧ valU16LE b 12 = 8 ∧
        valU16LE b 132 = 61946) →
      ∃ e, parseAseprite inflate b = Except.error e) := by
  constructor
  · intro h144 hm hb hf
    have e1 : readU16LE b 4 = Except.ok 42464 := by
      rw [readU16LE_eq_val b 4 (by omega), hm]
    have e2a : readU16LE b 8 = Except.ok (valU16LE b 8) :=
      readU16LE_eq_val b 8 (by omega)
    have e2b : readU16LE b 10 = Except.ok (valU16LE b 10) :=
      readU16LE_eq_val b 10 (by omega)
    have e3 : readU16LE b 12 = Except.ok 8 := by
      rw [readU16LE_eq_val b 12 (by omega), hb]
    have e4 : readU16LE b 132 = Except.ok 61946 := by
      rw [readU16LE_eq_val b 132 (by omega), hf]
    have e5 : readU16LE b 134 = Except.ok (valU16LE b 134) :=
      readU16LE_eq_val b 134 (by omega)
    have e6 : readU32LE b 140 = Except.ok (valU32LE b 140) :=
      readU32LE_eq_val b 140 (by omega)
    simp only [parseAseprite, e1, e2a, e2b, e3, e4, e5, e6, exceptOk_bind]
    rw [if_neg (by norm_num), if_neg (by norm_num), if_neg (by omega),
      if_neg (by norm_num)]
  · intro hnot
    by_cases h6 : 6 ≤ b.length
    · have e1 : readU16LE b 4 = Except.ok (valU16LE b 4) :=
        readU16LE_eq_val b 4 (by omega)
      by_cases hm : valU16LE b 4 = 42464
      · have e1o : readU16LE b 4 = Except.ok 42464 := by rw [e1, hm]
        by_cases h10 : 10 ≤ b.length
        · have e8 : readU16LE b 8 = Except.ok (valU16LE b 8) :=
            readU16LE_eq_val b 8 (by omega)
          by_cases h12 : 12 ≤ b.length
          · have e10 : readU16LE b 10 = Except.ok (valU16LE b 10) :=
              readU16LE_eq_val b 10 (by omega)
            by_cases h14 : 14 ≤ b.length
            · have e12 : readU16LE b 12 = Except.ok (valU16LE b 12) :=
                readU16LE_eq_val b 12 (by omega)
              by_cases hbpp : valU16LE b 12 = 8
              · have e12o : readU16LE b 12 = Except.ok 8 := by rw [e12, hbpp]
                by_cases h144 : 144 ≤ b.length
                · have hf : valU16LE b 132 ≠ 61946 := by
                    intro h
                    exact hnot ⟨h144, hm, hbpp, h⟩
                  have e132 : readU16LE b 132 = Except.ok (valU16LE b 132) :=
                    readU16LE_eq_val b 132 (by omega)
                  refine ⟨"Invalid Frame header", ?_⟩
                  simp only [parseAseprite, e1o, e8, e10, e12o, e132, exceptOk_bind]
                  rw [if_neg (by norm_num), if_neg (by norm_num),
                    if_neg (by omega), if_pos hf]
                · refine ⟨"File too short for frame header", ?_⟩
                  simp only [parseAseprite, e1o, e8, e10, e12o, exceptOk_bind]
                  rw [if_neg (by norm_num), if_neg (by norm_num),
                    if_pos (by omega)]
              · refine ⟨"Only 8bpp (Indexed) Aseprite files are supported", ?_⟩
                simp only [parseAseprite, e1o, e8, e10, e12, exceptOk_bind]
                rw [if_neg (by norm_num), if_pos hbpp]
            · refine ⟨"RangeError", ?_⟩
              simp only [parseAseprite, e1o, e8, e10, exceptOk_bind,
                readU16LE_err b 12 (by omega), exceptError_bind]
              rw [if_neg (by norm_num)]
          · refine ⟨"RangeError", ?_⟩
            simp only [parseAseprite, e1o, e8, exceptOk_bind,
              readU16LE_err b 10 (by omega), exceptError_bind]
            rw [if_neg (by norm_num)]
        · refine ⟨"RangeError", ?_⟩
          simp only [parseAseprite, e1o, exceptOk_bind,
            readU16LE_err b 8 (by omega), exceptError_bind]
          rw [if_neg (by norm_num)]
      · refine ⟨"Invalid Aseprite file header", ?_⟩
        simp only [parseAseprite, e1, exceptOk_bind]
        rw [if_pos hm]
    · refine ⟨"RangeError", ?_⟩
      simp only [parseAseprite, readU16LE_err b 4 (by omega), exceptError_bind]

set_option maxRecDepth 4000 in
/-- C9 counterexample: a 140-byte buffer with a correct file magic,
8-bit depth, and a correct frame magic at 132 still fails ("File too
short for frame header", checked before the frame magic read), so the
three field checks alone do not characterize the failures. -/
theorem aseprite_header_counterexample :
    valU16LE ([0, 0, 0, 0, 224, 165, 0, 0, 0, 0, 0, 0, 8, 0] ++
      List.replicate 118 0 ++ [250, 241] ++ List.replicate 6 0) 4 = 42464 ∧
    valU16LE ([0, 0, 0, 0, 224, 165, 0, 0, 0, 0, 0, 0, 8, 0] ++
      List.replicate 118 0 ++ [250, 241] ++ List.replicate 6 0) 12 = 8 ∧
    valU16LE ([0, 0, 0, 0, 224, 165, 0, 0, 0, 0, 0, 0, 8, 0] ++
      List.replicate 118 0 ++ [250, 241] ++ List.replicate 6 0) 132 = 61946 ∧
    parseAseprite (fun _ => none)
      ([0, 0, 0, 0, 224, 165, 0, 0, 0, 0, 0, 0, 8, 0] ++
        List.replicate 118 0 ++ [250, 241] ++ List.replicate 6 0) =
      Except.error "File too short for frame header" := by
  refine ⟨by decide, by decide, by decide, by rfl⟩

set_option maxRecDepth 4000 in
/-- Witness for C9 (amended) at a 144-byte buffer passing all checks. -/
theorem aseprite_header_checks_witness :
    parseAseprite (fun _ => none)
      ([0, 0, 0, 0, 224, 165, 0, 0, 0, 0, 0, 0, 8, 0] ++
        List.replicate 118 0 ++ [250, 241] ++ List.replicate 10 0) =
      chunkLoop (fun _ => none)
        ([0, 0, 0, 0, 224, 165, 0, 0, 0, 0, 0, 0, 8, 0] ++
          List.replicate 118 0 ++ [250, 241] ++ List.replicate 10 0)
        (valU16LE ([0, 0, 0, 0, 224, 165, 0, 0, 0, 0, 0, 0, 8, 0] ++
          List.replicate 118 0 ++ [250, 241] ++ List.replicate 10 0) 8)
        (valU16LE ([0, 0, 0, 0, 224, 165, 0, 0, 0, 0, 0, 0, 8, 0] ++
          List.replicate 118 0 ++ [250, 241] ++ List.replicate 10 0) 10)
        (if valU32LE ([0, 0, 0, 0, 224, 165, 0, 0, 0, 0, 0, 0, 8, 0] ++
            List.replicate 118 0 ++ [250, 241] ++ List.replicate 10 0) 140 = 0
          then valU16LE ([0, 0, 0, 0, 224, 165, 0, 0, 0, 0, 0, 0, 8, 0] ++
            List.replicate 118 0 ++ [250, 241] ++ List.replicate 10 0) 134
          else valU32LE ([0, 0, 0, 0, 224, 165, 0, 0, 0, 0, 0, 0, 8, 0] ++
            List.replicate 118 0 ++ [250, 241] ++ List.replicate 10 0) 140) 144
        (List.replicate 256 ⟨0, 0, 0⟩)
        (List.replicate
          (valU16LE ([0, 0, 0, 0, 224, 165, 0, 0, 0, 0, 0, 0, 8, 0] ++
            List.replicate 118 0 ++ [250, 241] ++ List.replicate 10 0) 8 *
           valU16LE ([0, 0, 0, 0, 224, 165, 0, 0, 0, 0, 0, 0, 8, 0] ++
            List.replicate 118 0 ++ [250, 241] ++ List.replicate 10 0) 10) 0) :=
  (aseprite_header_checks (fun _ => none)
    ([0, 0, 0, 0, 224, 165, 0, 0, 0, 0, 0, 0, 8, 0] ++
      List.replicate 118 0 ++ [250, 241] ++ List.replicate 10 0)).1
    (by decide) (by decide) (by decide) (by decide)
